import Mathlib

/-! TinkerDB storage core.

A shallow embedding of `internal/storage/store.go`: the per-tenant key-value
store (`TenantStore`) and the multi-tenant registry (`Store`), and of the
request handlers of `internal/server/grpc_server.go` (`KVStoreServer`).

Modelling decisions:

* a Go `map[string]T` is a finite map with unique keys, embedded as an
  association list without duplicate keys (`AList`);
* a Go `[]byte` is embedded as the list of its bytes (a nil slice and an empty
  slice both have length 0 and are the empty list);
* a Go `error` is embedded as `Option String`: `none` is `nil`, `some msg` is
  the error built by `fmt.Errorf(msg)`;
* a method with a pointer receiver that mutates its receiver returns the new
  receiver state next to its Go results;
* the registry owns its tenant stores (the pointers never leave the package),
  so a mutation through the pointer held in `tenants` is embedded as writing
  the new tenant store back at the same entry of the map;
* the locks are not modelled: every method is embedded as one atomic step,
  except in the section on concurrent writers, where `Store.Set` is embedded
  as one step for each section of code that runs under a lock.
-/

namespace TinkerDB

/-- One byte. -/
abbrev Byte := Fin 256

/-- The contents of a Go byte slice. -/
abbrev Bytes := List Byte

/-- The Go builtin `make([]byte, n)`: a slice of `n` zero bytes. -/
def make (n : Nat) : Bytes := List.replicate n 0

/-- The Go builtin `copy(dst, src)`: the contents of `dst` after the first
`min (len dst) (len src)` bytes of `src` have been written over its start. -/
def copy (dst src : Bytes) : Bytes :=
  let n := min dst.length src.length
  src.take n ++ dst.drop n

/-- The key-value store of a single tenant (the field `data`). -/
structure TenantStore where
  data : AList (fun _ : String => Bytes)

/-- The function `NewTenantStore`: an empty map. -/
def NewTenantStore : TenantStore := ⟨∅⟩

namespace TenantStore

/-- The method `TenantStore.Set`: rejects the empty key, otherwise stores a copy
of the value under the key. -/
def Set (ts : TenantStore) (key : String) (value : Bytes) : TenantStore × Option String :=
  if key = "" then
    (ts, some "key cannot be empty")
  else
    let valueCopy := copy (make value.length) value
    (⟨ts.data.insert key valueCopy⟩, none)

/-- The method `TenantStore.Get`: a copy of the stored value and `true`, or
`(nil, false)`. -/
def Get (ts : TenantStore) (key : String) : Bytes × Bool :=
  match ts.data.lookup key with
  | none => ([], false)
  | some value =>
    let valueCopy := copy (make value.length) value
    (valueCopy, true)

/-- The method `TenantStore.Delete`: removes the key when it is present and
reports whether it was. -/
def Delete (ts : TenantStore) (key : String) : TenantStore × Bool :=
  let «exists» := (ts.data.lookup key).isSome
  if «exists» then (⟨ts.data.erase key⟩, «exists») else (ts, «exists»)

/-- The method `TenantStore.Exists`. -/
def Exists (ts : TenantStore) (key : String) : Bool :=
  (ts.data.lookup key).isSome

/-- The method `TenantStore.Keys`: the keys of the map, in the order of the
association list (Go leaves the order unspecified). -/
def Keys (ts : TenantStore) : List String :=
  ts.data.keys

/-- The method `TenantStore.Size`: `len(ts.data)`. -/
def Size (ts : TenantStore) : Nat :=
  ts.data.entries.length

end TenantStore

/-- The multi-tenant store (the field `tenants`). -/
structure Store where
  tenants : AList (fun _ : String => TenantStore)

/-- The function `NewStore`: no tenants. -/
def NewStore : Store := ⟨∅⟩

namespace Store

/-- The method `Store.getTenantStore`: the tenant store of `tenantID`, created
empty and registered when there is none. The second lookup is the re-check made
under the write lock. -/
def getTenantStore (s : Store) (tenantID : String) : Store × TenantStore :=
  match s.tenants.lookup tenantID with
  | some tenantStore => (s, tenantStore)
  | none =>
    match s.tenants.lookup tenantID with
    | some tenantStore => (s, tenantStore)
    | none =>
      let tenantStore := NewTenantStore
      (⟨s.tenants.insert tenantID tenantStore⟩, tenantStore)

/-- A mutation of the tenant store that `tenants[tenantID]` points to: the entry
keeps its place in the map and holds the new contents. -/
def writeBack (s : Store) (tenantID : String) (tenantStore : TenantStore) : Store :=
  ⟨s.tenants.replace tenantID tenantStore⟩

/-- The method `Store.Set`. -/
def Set (s : Store) (tenantID key : String) (value : Bytes) : Store × Option String :=
  if tenantID = "" then
    (s, some "tenant ID cannot be empty")
  else
    let (s1, tenantStore) := s.getTenantStore tenantID
    let (tenantStore1, err) := tenantStore.Set key value
    (s1.writeBack tenantID tenantStore1, err)

/-- The method `Store.Get`. -/
def Get (s : Store) (tenantID key : String) : Bytes × Bool :=
  if tenantID = "" then
    ([], false)
  else
    match s.tenants.lookup tenantID with
    | none => ([], false)
    | some tenantStore => tenantStore.Get key

/-- The method `Store.Delete`. -/
def Delete (s : Store) (tenantID key : String) : Store × Bool :=
  if tenantID = "" then
    (s, false)
  else
    match s.tenants.lookup tenantID with
    | none => (s, false)
    | some tenantStore =>
      let (tenantStore1, removed) := tenantStore.Delete key
      (s.writeBack tenantID tenantStore1, removed)

/-- The method `Store.Exists`. -/
def Exists (s : Store) (tenantID key : String) : Bool :=
  if tenantID = "" then
    false
  else
    match s.tenants.lookup tenantID with
    | none => false
    | some tenantStore => tenantStore.Exists key

/-- The method `Store.Keys`. -/
def Keys (s : Store) (tenantID : String) : List String :=
  if tenantID = "" then
    []
  else
    match s.tenants.lookup tenantID with
    | none => []
    | some tenantStore => tenantStore.Keys

/-- The method `Store.TenantCount`: `len(s.tenants)`. -/
def TenantCount (s : Store) : Nat :=
  s.tenants.entries.length

/-- The method `Store.DeleteTenant`. -/
def DeleteTenant (s : Store) (tenantID : String) : Store × Bool :=
  let «exists» := (s.tenants.lookup tenantID).isSome
  if «exists» then (⟨s.tenants.erase tenantID⟩, «exists») else (s, «exists»)

end Store

/-! ## The reading methods with the receiver they leave

`Get`, `Exists`, `Keys` and `TenantCount` have pointer receivers as well. Here
they are embedded in the same style as the mutating methods: each returns the
receiver as the call leaves it, next to its Go results. A read of a map entry
(`ts.data[key]`, `s.tenants[tenantID]`), a `range` over a map and `len` assign
to nothing; a call on the tenant store that `tenants[tenantID]` points to is
followed by `writeBack`, as in `Store.Delete`. -/

/-- The method `TenantStore.Get`, with the receiver it leaves. -/
def TenantStore.GetRecv (ts : TenantStore) (key : String) : TenantStore × Bytes × Bool :=
  match ts.data.lookup key with
  | none => (ts, [], false)
  | some value =>
    let valueCopy := copy (make value.length) value
    (ts, valueCopy, true)

/-- The method `TenantStore.Exists`, with the receiver it leaves. -/
def TenantStore.ExistsRecv (ts : TenantStore) (key : String) : TenantStore × Bool :=
  (ts, (ts.data.lookup key).isSome)

/-- The method `TenantStore.Keys`, with the receiver it leaves. -/
def TenantStore.KeysRecv (ts : TenantStore) : TenantStore × List String :=
  (ts, ts.data.keys)

/-- The method `Store.Get`, with the receiver it leaves. -/
def Store.GetRecv (s : Store) (tenantID key : String) : Store × Bytes × Bool :=
  if tenantID = "" then
    (s, [], false)
  else
    match s.tenants.lookup tenantID with
    | none => (s, [], false)
    | some tenantStore =>
      let (tenantStore1, value, found) := tenantStore.GetRecv key
      (s.writeBack tenantID tenantStore1, value, found)

/-- The method `Store.Exists`, with the receiver it leaves. -/
def Store.ExistsRecv (s : Store) (tenantID key : String) : Store × Bool :=
  if tenantID = "" then
    (s, false)
  else
    match s.tenants.lookup tenantID with
    | none => (s, false)
    | some tenantStore =>
      let (tenantStore1, found) := tenantStore.ExistsRecv key
      (s.writeBack tenantID tenantStore1, found)

/-- The method `Store.Keys`, with the receiver it leaves. -/
def Store.KeysRecv (s : Store) (tenantID : String) : Store × List String :=
  if tenantID = "" then
    (s, [])
  else
    match s.tenants.lookup tenantID with
    | none => (s, [])
    | some tenantStore =>
      let (tenantStore1, keys) := tenantStore.KeysRecv
      (s.writeBack tenantID tenantStore1, keys)

/-- The method `Store.TenantCount`, with the receiver it leaves. -/
def Store.TenantCountRecv (s : Store) : Store × Nat :=
  (s, s.tenants.entries.length)

/-! ## Sequences of calls -/

/-- One call of a mutating method of `TenantStore`, with its arguments. -/
inductive TenantCall where
  | set (key : String) (value : Bytes)
  | delete (key : String)

/-- The tenant store that a call leaves behind. -/
def TenantStore.call (ts : TenantStore) : TenantCall → TenantStore
  | .set key value => (ts.Set key value).1
  | .delete key => (ts.Delete key).1

/-- The tenant store after a sequence of calls, made one after the other. -/
def TenantStore.run (ts : TenantStore) : List TenantCall → TenantStore
  | [] => ts
  | c :: cs => (ts.call c).run cs

/-- One call of a public method of `Store`, with its arguments. -/
inductive Call where
  | set (tenantID key : String) (value : Bytes)
  | get (tenantID key : String)
  | delete (tenantID key : String)
  | exist (tenantID key : String)
  | keys (tenantID : String)
  | tenantCount
  | deleteTenant (tenantID : String)

/-- The registry that a call leaves behind: the receiver that the called
method returns. -/
def Store.call (s : Store) : Call → Store
  | .set tenantID key value => (s.Set tenantID key value).1
  | .get tenantID key => (s.GetRecv tenantID key).1
  | .delete tenantID key => (s.Delete tenantID key).1
  | .exist tenantID key => (s.ExistsRecv tenantID key).1
  | .keys tenantID => (s.KeysRecv tenantID).1
  | .tenantCount => s.TenantCountRecv.1
  | .deleteTenant tenantID => (s.DeleteTenant tenantID).1

/-- The registry after a sequence of calls, made one after the other. -/
def Store.run (s : Store) : List Call → Store
  | [] => s
  | c :: cs => (s.call c).run cs

/-- A call of `TenantStore` made through the registry for tenant `tenantID`:
`Store.Set tenantID` or `Store.Delete tenantID`. -/
def TenantCall.on (tenantID : String) : TenantCall → Call
  | .set key value => .set tenantID key value
  | .delete key => .delete tenantID key

/-! ## The request handlers (`internal/server/grpc_server.go`)

The handlers are embedded without their `context.Context` argument, which they
do not use, and without the `log.Printf` line, which writes to the log only. A
handler returns a pointer to a response and an `error`; the response is
embedded as a value and the error as `Option String`. -/

/-- Modelled from the spec: the message type `pb.SetRequest` of the generated
package `proto`, which is not among the sources; the fields are those that the
handlers and their tests use. -/
structure SetRequest where
  TenantId : String
  Key : String
  Value : Bytes

/-- Modelled from the spec: the message type `pb.SetResponse` of the generated
package `proto`. -/
structure SetResponse where
  Success : Bool
  Message : String

/-- Modelled from the spec: the message type `pb.GetRequest` of the generated
package `proto`. -/
structure GetRequest where
  TenantId : String
  Key : String

/-- Modelled from the spec: the message type `pb.GetResponse` of the generated
package `proto`; a `Value` that is not set is the nil slice. -/
structure GetResponse where
  Found : Bool
  Value : Bytes
  Message : String

/-- Modelled from the spec: the message type `pb.DeleteRequest` of the
generated package `proto`. -/
structure DeleteRequest where
  TenantId : String
  Key : String

/-- Modelled from the spec: the message type `pb.DeleteResponse` of the
generated package `proto`. -/
structure DeleteResponse where
  Success : Bool
  Message : String

/-- Modelled from the spec: the message type `pb.ExistsRequest` of the
generated package `proto`. -/
structure ExistsRequest where
  TenantId : String
  Key : String

/-- Modelled from the spec: the message type `pb.ExistsResponse` of the
generated package `proto`. -/
structure ExistsResponse where
  Exists : Bool

/-- Modelled from the spec: the message type `pb.KeysRequest` of the generated
package `proto`. -/
structure KeysRequest where
  TenantId : String

/-- Modelled from the spec: the message type `pb.KeysResponse` of the generated
package `proto`. -/
structure KeysResponse where
  Keys : List String

/-- The gRPC server (the field `store`). -/
structure KVStoreServer where
  store : Store

/-- The function `NewKVStoreServer`. -/
def NewKVStoreServer : KVStoreServer := ⟨NewStore⟩

namespace KVStoreServer

/-- The handler `KVStoreServer.Set`. -/
def Set (s : KVStoreServer) (req : SetRequest) :
    KVStoreServer × SetResponse × Option String :=
  if req.TenantId = "" then
    (s, ⟨false, "tenant ID cannot be empty"⟩, none)
  else if req.Key = "" then
    (s, ⟨false, "key cannot be empty"⟩, none)
  else
    let (store1, err) := s.store.Set req.TenantId req.Key req.Value
    match err with
    | some e => (⟨store1⟩, ⟨false, "failed to set key: " ++ e⟩, none)
    | none => (⟨store1⟩, ⟨true, "key set successfully"⟩, none)

/-- The handler `KVStoreServer.Get`. -/
def Get (s : KVStoreServer) (req : GetRequest) : GetResponse × Option String :=
  if req.TenantId = "" then
    (⟨false, [], "tenant ID cannot be empty"⟩, none)
  else if req.Key = "" then
    (⟨false, [], "key cannot be empty"⟩, none)
  else
    let (value, found) := s.store.Get req.TenantId req.Key
    if !found then
      (⟨false, [], "key not found"⟩, none)
    else
      (⟨true, value, "key found"⟩, none)

/-- The handler `KVStoreServer.Delete`. -/
def Delete (s : KVStoreServer) (req : DeleteRequest) :
    KVStoreServer × DeleteResponse × Option String :=
  if req.TenantId = "" then
    (s, ⟨false, "tenant ID cannot be empty"⟩, none)
  else if req.Key = "" then
    (s, ⟨false, "key cannot be empty"⟩, none)
  else
    let (store1, deleted) := s.store.Delete req.TenantId req.Key
    if !deleted then
      (⟨store1⟩, ⟨false, "key not found"⟩, none)
    else
      (⟨store1⟩, ⟨true, "key deleted successfully"⟩, none)

/-- The handler `KVStoreServer.Exists`. -/
def Exists (s : KVStoreServer) (req : ExistsRequest) : ExistsResponse × Option String :=
  if req.TenantId = "" ∨ req.Key = "" then
    (⟨false⟩, none)
  else
    let «exists» := s.store.Exists req.TenantId req.Key
    (⟨«exists»⟩, none)

/-- The handler `KVStoreServer.Keys`. -/
def Keys (s : KVStoreServer) (req : KeysRequest) : KeysResponse × Option String :=
  if req.TenantId = "" then
    (⟨[]⟩, none)
  else
    let keys := s.store.Keys req.TenantId
    (⟨keys⟩, none)

end KVStoreServer

/-- One request to the server. -/
inductive Request where
  | set (req : SetRequest)
  | get (req : GetRequest)
  | delete (req : DeleteRequest)
  | exist (req : ExistsRequest)
  | keys (req : KeysRequest)

/-- The server that a request leaves behind. The handlers `Get`, `Exists` and
`Keys` call reading methods of the store only, so they leave the server they
were called on. -/
def KVStoreServer.handle (s : KVStoreServer) : Request → KVStoreServer
  | .set req => (s.Set req).1
  | .get _ => s
  | .delete req => (s.Delete req).1
  | .exist _ => s
  | .keys _ => s

/-- The server after a sequence of requests, handled one after the other. -/
def KVStoreServer.serve (s : KVStoreServer) : List Request → KVStoreServer
  | [] => s
  | r :: rs => (s.handle r).serve rs

/-- Whether a request is a `Set` of key `key` of tenant `tenantID`. -/
def Request.setsKey (tenantID key : String) : Request → Bool
  | .set req => decide (req.TenantId = tenantID ∧ req.Key = key)
  | _ => false

/-! ## The copying methods over an explicit memory

In the embedding above a byte slice is a value, so it cannot be shared. To
speak about a caller that writes to a buffer it has passed to `Set` or got from
`Get`, the methods on the path of a value (`TenantStore.Set`, `TenantStore.Get`,
`Store.getTenantStore`, `Store.Set`, `Store.Get`) are embedded once more, over a
memory of backing arrays: a byte slice is the address of its backing array (it
spans the whole array) and the maps hold such addresses. -/

namespace Mem

/-- The address of a backing array. -/
abbrev Addr := Nat

/-- The memory: the backing arrays that have been allocated, by address. -/
structure Heap where
  arrays : List Bytes

namespace Heap

/-- The bytes of the slice at address `a`. -/
def read (h : Heap) (a : Addr) : Bytes :=
  h.arrays.getD a []

/-- The contents of an optional slice; the nil slice has no bytes. -/
def readSlice (h : Heap) : Option Addr → Bytes
  | none => []
  | some a => h.read a

/-- Writing bytes over the slice at address `a`. -/
def write (h : Heap) (a : Addr) (bs : Bytes) : Heap :=
  ⟨h.arrays.set a bs⟩

/-- The Go builtin `make([]byte, n)`: a new backing array of `n` zero bytes, at
an address that was not in use. -/
def make (h : Heap) (n : Nat) : Heap × Addr :=
  (⟨h.arrays ++ [TinkerDB.make n]⟩, h.arrays.length)

/-- The Go builtin `copy(dst, src)` on two slices of the memory. -/
def copy (h : Heap) (dst src : Addr) : Heap :=
  h.write dst (TinkerDB.copy (h.read dst) (h.read src))

end Heap

/-- The type `TenantStore`; the map holds slices, that is addresses. -/
structure TenantStore where
  data : AList (fun _ : String => Addr)

/-- The function `NewTenantStore`. -/
def NewTenantStore : TenantStore := ⟨∅⟩

namespace TenantStore

/-- The method `TenantStore.Set`, called with the slice `value`. -/
def Set (ts : TenantStore) (h : Heap) (key : String) (value : Addr) :
    Heap × TenantStore × Option String :=
  if key = "" then
    (h, ts, some "key cannot be empty")
  else
    let (h1, valueCopy) := h.make (h.read value).length
    let h2 := h1.copy valueCopy value
    (h2, ⟨ts.data.insert key valueCopy⟩, none)

/-- The method `TenantStore.Get`; the slice it returns is `none` for nil. -/
def Get (ts : TenantStore) (h : Heap) (key : String) : Heap × Option Addr × Bool :=
  match ts.data.lookup key with
  | none => (h, none, false)
  | some value =>
    let (h1, valueCopy) := h.make (h.read value).length
    let h2 := h1.copy valueCopy value
    (h2, some valueCopy, true)

end TenantStore

/-- The type `Store`. -/
structure Store where
  tenants : AList (fun _ : String => TenantStore)

/-- The function `NewStore`. -/
def NewStore : Store := ⟨∅⟩

namespace Store

/-- The method `Store.getTenantStore`. -/
def getTenantStore (s : Store) (tenantID : String) : Store × TenantStore :=
  match s.tenants.lookup tenantID with
  | some tenantStore => (s, tenantStore)
  | none =>
    match s.tenants.lookup tenantID with
    | some tenantStore => (s, tenantStore)
    | none =>
      let tenantStore := NewTenantStore
      (⟨s.tenants.insert tenantID tenantStore⟩, tenantStore)

/-- A mutation of the tenant store that `tenants[tenantID]` points to. -/
def writeBack (s : Store) (tenantID : String) (tenantStore : TenantStore) : Store :=
  ⟨s.tenants.replace tenantID tenantStore⟩

/-- The method `Store.Set`, called with the slice `value`. -/
def Set (s : Store) (h : Heap) (tenantID key : String) (value : Addr) :
    Heap × Store × Option String :=
  if tenantID = "" then
    (h, s, some "tenant ID cannot be empty")
  else
    let (s1, tenantStore) := s.getTenantStore tenantID
    let (h1, tenantStore1, err) := tenantStore.Set h key value
    (h1, s1.writeBack tenantID tenantStore1, err)

/-- The method `Store.Get`. -/
def Get (s : Store) (h : Heap) (tenantID key : String) : Heap × Option Addr × Bool :=
  if tenantID = "" then
    (h, none, false)
  else
    match s.tenants.lookup tenantID with
    | none => (h, none, false)
    | some tenantStore => tenantStore.Get h key

end Store

/-- The steps of the test `TestStore_ValueIsolation`, from any store and memory
and for any bytes written over the buffers: `Set` with the slice `value`; the
caller writes `junk1` over that slice; `Get`; the caller writes `junk2` over the
slice it got; `Get` again. The result is, for each of the two `Get` calls, the
bytes of the slice it returned, read right after the call, and its found
flag. -/
def valueIsolation (s : Store) (h : Heap) (tenantID key : String) (value : Addr)
    (junk1 junk2 : Bytes) : (Bytes × Bool) × (Bytes × Bool) :=
  let (h1, s1, _) := s.Set h tenantID key value
  let h2 := h1.write value junk1
  let (h3, retrievedValue, found1) := s1.Get h2 tenantID key
  let h4 := match retrievedValue with
    | some a => h3.write a junk2
    | none => h3
  let (h5, retrievedValue2, found2) := s1.Get h4 tenantID key
  ((h3.readSlice retrievedValue, found1), (h5.readSlice retrievedValue2, found2))

end Mem

/-! ## Concurrent writers

Several goroutines that each run `Store.Set`. The registry holds pointers, so
the tenant stores live in a table of objects and `tenants` maps a tenant
identifier to the address of its tenant store; a goroutine that has left
`getTenantStore` holds such an address. One goroutine runs `Store.Set` in three
steps, one for each section of code that runs under a lock (the code between two
sections reads arguments and locals only, and is taken with the section that
follows it):

* the lookup of `getTenantStore` under `s.mu.RLock()`, with the guard on the
  tenant identifier before it;
* the re-check and the creation of `getTenantStore` under `s.mu.Lock()`, taken
  only when the lookup found nothing;
* `TenantStore.Set` on the tenant store whose address the goroutine holds: the
  guard on the key and the write under `ts.mu.Lock()`.

A schedule says which goroutine takes the next step. -/

namespace Conc

/-- The registry as the goroutines share it. -/
structure Shared where
  tenants : AList (fun _ : String => Nat)
  objects : List TenantStore

namespace Shared

/-- The tenant store at an address. -/
def deref (sh : Shared) (tenantStore : Nat) : TenantStore :=
  sh.objects.getD tenantStore NewTenantStore

/-- The method `Store.TenantCount`: `len(s.tenants)`. -/
def TenantCount (sh : Shared) : Nat :=
  sh.tenants.entries.length

/-- The method `Store.Get`, called when no other goroutine runs. -/
def Get (sh : Shared) (tenantID key : String) : Bytes × Bool :=
  if tenantID = "" then
    ([], false)
  else
    match sh.tenants.lookup tenantID with
    | none => ([], false)
    | some tenantStore => (sh.deref tenantStore).Get key

end Shared

/-- Where a goroutine that runs `Store.Set(tenantID, key, value)` stands: before
the lookup, before the re-check (the lookup found no tenant store), before
`tenantStore.Set` (holding the address `tenantStore`), or returned with its
error. -/
inductive Writer where
  | start (tenantID key : String) (value : Bytes)
  | create (tenantID key : String) (value : Bytes)
  | store (tenantStore : Nat) (key : String) (value : Bytes)
  | done (err : Option String)

namespace Writer

/-- Whether the goroutine has returned. -/
def isDone : Writer → Bool
  | .done _ => true
  | _ => false

/-- The next step of a goroutine, on the shared registry. -/
def step (sh : Shared) : Writer → Shared × Writer
  | .start tenantID key value =>
    if tenantID = "" then
      (sh, .done (some "tenant ID cannot be empty"))
    else
      match sh.tenants.lookup tenantID with
      | some tenantStore => (sh, .store tenantStore key value)
      | none => (sh, .create tenantID key value)
  | .create tenantID key value =>
    match sh.tenants.lookup tenantID with
    | some tenantStore => (sh, .store tenantStore key value)
    | none =>
      let tenantStore := sh.objects.length
      (⟨sh.tenants.insert tenantID tenantStore, sh.objects ++ [NewTenantStore]⟩,
        .store tenantStore key value)
  | .store tenantStore key value =>
    let (tenantStore1, err) := (sh.deref tenantStore).Set key value
    (⟨sh.tenants, sh.objects.set tenantStore tenantStore1⟩, .done err)
  | .done err => (sh, .done err)

end Writer

/-- The shared registry and the goroutines. -/
structure World where
  shared : Shared
  writers : List Writer

namespace World

/-- Goroutine `i` takes its next step. -/
def step (w : World) (i : Nat) : World :=
  match w.writers[i]? with
  | none => w
  | some wr =>
    let (sh, wr1) := wr.step w.shared
    ⟨sh, w.writers.set i wr1⟩

/-- The goroutines take steps in the order of the schedule. -/
def run (w : World) : List Nat → World
  | [] => w
  | i :: schedule => (w.step i).run schedule

end World

/-- The goroutines at the start: one for each pair of a key and a value, each
about to run `Store.Set(tenantID, key, value)`. -/
def writers (tenantID : String) (kvs : List (String × Bytes)) : List Writer :=
  kvs.map (fun kv => Writer.start tenantID kv.1 kv.2)

/-- The race of the goroutines `writers tenantID kvs` on the registry `sh0`: the
registry and the goroutines after the steps of the schedule. -/
def race (sh0 : Shared) (tenantID : String) (kvs : List (String × Bytes))
    (schedule : List Nat) : World :=
  (World.mk sh0 (writers tenantID kvs)).run schedule

/-- What holds of the goroutine for the pair `kv` while no tenant store has been
created for `tenantID`: it has not passed `getTenantStore`. -/
def Before (tenantID : String) (kv : String × Bytes) (wr : Writer) : Prop :=
  wr = .start tenantID kv.1 kv.2 ∨ wr = .create tenantID kv.1 kv.2

/-- What holds of the goroutine for the pair `kv` once a tenant store, with
contents `ns`, has been created at address `a`: it has not passed
`getTenantStore`, or it holds the address `a`, or it has returned and its key,
when not empty, is stored in `ns`. -/
def After (tenantID : String) (a : Nat) (ns : TenantStore) (kv : String × Bytes)
    (wr : Writer) : Prop :=
  wr = .start tenantID kv.1 kv.2 ∨ wr = .create tenantID kv.1 kv.2 ∨
  wr = .store a kv.1 kv.2 ∨
  (∃ err, wr = .done err ∧ (kv.1 ≠ "" → (ns.data.lookup kv.1).isSome = true))

/-- The invariant of the runs that start from the registry `sh0`, in which
`tenantID` has no tenant store, with one goroutine for each pair of `kvs`:
either nothing has changed yet, or exactly one tenant store has been created,
at the first free address, it is the one registered for `tenantID`, and it
holds only values that the goroutines have written. -/
def Inv (sh0 : Shared) (tenantID : String) (kvs : List (String × Bytes)) (w : World) : Prop :=
  (w.shared = sh0 ∧ List.Forall₂ (Before tenantID) kvs w.writers) ∨
  (∃ ns : TenantStore,
    w.shared = ⟨sh0.tenants.insert tenantID sh0.objects.length, sh0.objects ++ [ns]⟩ ∧
    (∀ k v, ns.data.lookup k = some v → (k, v) ∈ kvs) ∧
    List.Forall₂ (After tenantID sh0.objects.length ns) kvs w.writers)

end Conc

/-! ## Auxiliary facts about the builtins and about finite maps -/

section Aux

theorem copy_make (v : Bytes) : copy (make v.length) v = v := by
  simp [copy, make]

variable {α : Type} {β : α → Type} [DecidableEq α]

theorem dlookup_kreplace_ne {a a1 : α} (b : β a1) (h : a ≠ a1) (l : List (Sigma β)) :
    List.dlookup a (List.kreplace a1 b l) = List.dlookup a l := by
  induction l with
  | nil => rfl
  | cons x xs ih =>
    obtain ⟨k, w⟩ := x
    by_cases hk : a1 = k
    · subst hk
      have e : List.kreplace a1 b (⟨a1, w⟩ :: xs) = ⟨a1, b⟩ :: xs := by
        simp [List.kreplace, List.lookmap_cons_some]
      rw [e, List.dlookup_cons_ne _ _ h, List.dlookup_cons_ne _ _ h]
    · have e : List.kreplace a1 b (⟨k, w⟩ :: xs) = ⟨k, w⟩ :: List.kreplace a1 b xs := by
        simp [List.kreplace, List.lookmap_cons_none, hk]
      rw [e]
      by_cases hak : a = k
      · subst hak
        simp
      · rw [List.dlookup_cons_ne _ _ hak, List.dlookup_cons_ne _ _ hak, ih]

theorem dlookup_kreplace_self (a : α) (b : β a) (l : List (Sigma β)) :
    List.dlookup a (List.kreplace a b l) = (List.dlookup a l).map (fun _ => b) := by
  induction l with
  | nil => rfl
  | cons x xs ih =>
    obtain ⟨k, w⟩ := x
    by_cases hk : a = k
    · subst hk
      have e : List.kreplace a b (⟨a, w⟩ :: xs) = ⟨a, b⟩ :: xs := by
        simp [List.kreplace, List.lookmap_cons_some]
      rw [e]
      simp
    · have e : List.kreplace a b (⟨k, w⟩ :: xs) = ⟨k, w⟩ :: List.kreplace a b xs := by
        simp [List.kreplace, List.lookmap_cons_none, hk]
      rw [e, List.dlookup_cons_ne _ _ hk, List.dlookup_cons_ne _ _ hk, ih]

theorem lookup_replace_ne {a a1 : α} (b : β a1) (h : a ≠ a1) (s : AList β) :
    (s.replace a1 b).lookup a = s.lookup a :=
  dlookup_kreplace_ne b h s.entries

theorem lookup_replace_self (a : α) (b : β a) (s : AList β) :
    (s.replace a b).lookup a = (s.lookup a).map (fun _ => b) :=
  dlookup_kreplace_self a b s.entries

theorem replace_of_lookup {a : α} {b : β a} {s : AList β} (h : s.lookup a = some b) :
    s.replace a b = s := by
  apply AList.ext
  exact List.kreplace_self s.nodupKeys (AList.mem_lookup_iff.mp h)

theorem erase_of_lookup_none {a : α} {s : AList β} (h : s.lookup a = none) :
    s.erase a = s := by
  apply AList.ext
  exact List.kerase_of_not_mem_keys (List.dlookup_eq_none.mp h)

end Aux

/-! ## What `Store.Set` does to the map of tenants -/

section SetFacts

/-- The tenant store that `Store.Set` writes to: the registered one, or a new
empty one. -/
theorem getTenantStore_snd (s : Store) (t : String) :
    (s.getTenantStore t).2 = (s.tenants.lookup t).getD NewTenantStore := by
  unfold Store.getTenantStore
  cases h : s.tenants.lookup t <;> simp

theorem getTenantStore_lookup (s : Store) (t : String) :
    (s.getTenantStore t).1.tenants.lookup t = some (s.getTenantStore t).2 := by
  unfold Store.getTenantStore
  cases h : s.tenants.lookup t
  · simp [AList.lookup_insert]
  · simp [h]

theorem getTenantStore_lookup_ne (s : Store) {t t2 : String} (h : t2 ≠ t) :
    (s.getTenantStore t).1.tenants.lookup t2 = s.tenants.lookup t2 := by
  unfold Store.getTenantStore
  cases h1 : s.tenants.lookup t
  · simp [AList.lookup_insert_ne h]
  · simp

theorem set_eq (s : Store) (t k : String) (v : Bytes) (ht : t ≠ "") :
    s.Set t k v =
      ((s.getTenantStore t).1.writeBack t (((s.getTenantStore t).2.Set k v).1),
        ((s.getTenantStore t).2.Set k v).2) := by
  simp [Store.Set, ht]

theorem set_lookup_ne (s : Store) (t k : String) (v : Bytes) {t2 : String} (h : t2 ≠ t) :
    (s.Set t k v).1.tenants.lookup t2 = s.tenants.lookup t2 := by
  by_cases ht : t = ""
  · simp [Store.Set, ht]
  · rw [set_eq s t k v ht]
    simp only [Store.writeBack]
    rw [lookup_replace_ne _ h, getTenantStore_lookup_ne s h]

theorem set_lookup_self (s : Store) (t k : String) (v : Bytes) (ht : t ≠ "") :
    (s.Set t k v).1.tenants.lookup t =
      some ((((s.tenants.lookup t).getD NewTenantStore).Set k v).1) := by
  rw [set_eq s t k v ht]
  simp only [Store.writeBack]
  rw [lookup_replace_self, getTenantStore_lookup, getTenantStore_snd]
  rfl

theorem set_err (s : Store) (t k : String) (v : Bytes) (ht : t ≠ "") :
    (s.Set t k v).2 = (((s.tenants.lookup t).getD NewTenantStore).Set k v).2 := by
  rw [set_eq s t k v ht, getTenantStore_snd]

end SetFacts

/-! ## What `Delete` does -/

section DeleteFacts

theorem tenantDelete_absent (ts : TenantStore) (k : String) (h : ts.Exists k = false) :
    ts.Delete k = (ts, false) := by
  unfold TenantStore.Exists at h
  simp [TenantStore.Delete, h]

theorem tenantDelete_present (ts : TenantStore) (k : String) (h : ts.Exists k = true) :
    ts.Delete k = (⟨ts.data.erase k⟩, true) := by
  unfold TenantStore.Exists at h
  simp [TenantStore.Delete, h]

theorem tenantDelete_exists (ts : TenantStore) (k : String) :
    (ts.Delete k).1.Exists k = false := by
  cases h : ts.Exists k
  · rw [tenantDelete_absent ts k h]
    exact h
  · rw [tenantDelete_present ts k h]
    simp [TenantStore.Exists, AList.lookup_erase]

theorem tenantGet_found (ts : TenantStore) (k : String) :
    (ts.Get k).2 = ts.Exists k := by
  unfold TenantStore.Get TenantStore.Exists
  cases ts.data.lookup k <;> rfl

theorem tenantGet_absent (ts : TenantStore) (k : String) (h : ts.Exists k = false) :
    ts.Get k = ([], false) := by
  unfold TenantStore.Exists at h
  unfold TenantStore.Get
  cases h1 : ts.data.lookup k
  · rfl
  · simp [h1] at h

theorem delete_eq (s : Store) (t k : String) (ts : TenantStore) (ht : t ≠ "")
    (h : s.tenants.lookup t = some ts) :
    s.Delete t k = (s.writeBack t (ts.Delete k).1, (ts.Delete k).2) := by
  simp [Store.Delete, ht, h]

theorem delete_lookup_self (s : Store) (t k : String) (ts : TenantStore) (ht : t ≠ "")
    (h : s.tenants.lookup t = some ts) :
    (s.Delete t k).1.tenants.lookup t = some (ts.Delete k).1 := by
  rw [delete_eq s t k ts ht h]
  simp only [Store.writeBack]
  rw [lookup_replace_self, h]
  rfl

end DeleteFacts

/-! ## What the reading methods do -/

section ReadFacts

theorem writeBack_same (s : Store) (t : String) (ts : TenantStore)
    (h : s.tenants.lookup t = some ts) : s.writeBack t ts = s := by
  unfold Store.writeBack
  rw [replace_of_lookup h]

theorem getRecv_eq (s : Store) (t k : String) : s.GetRecv t k = (s, s.Get t k) := by
  by_cases ht : t = ""
  · simp [Store.GetRecv, Store.Get, ht]
  · cases hl : s.tenants.lookup t with
    | none => simp [Store.GetRecv, Store.Get, ht, hl]
    | some ts =>
      simp only [Store.GetRecv, Store.Get, if_neg ht, hl]
      cases hk : ts.data.lookup k <;>
        simp [TenantStore.GetRecv, TenantStore.Get, hk, writeBack_same s t ts hl]

theorem existsRecv_eq (s : Store) (t k : String) :
    s.ExistsRecv t k = (s, s.Exists t k) := by
  by_cases ht : t = ""
  · simp [Store.ExistsRecv, Store.Exists, ht]
  · cases hl : s.tenants.lookup t with
    | none => simp [Store.ExistsRecv, Store.Exists, ht, hl]
    | some ts =>
      simp [Store.ExistsRecv, Store.Exists, ht, hl, TenantStore.ExistsRecv,
        TenantStore.Exists, writeBack_same s t ts hl]

theorem keysRecv_eq (s : Store) (t : String) : s.KeysRecv t = (s, s.Keys t) := by
  by_cases ht : t = ""
  · simp [Store.KeysRecv, Store.Keys, ht]
  · cases hl : s.tenants.lookup t with
    | none => simp [Store.KeysRecv, Store.Keys, ht, hl]
    | some ts =>
      simp [Store.KeysRecv, Store.Keys, ht, hl, TenantStore.KeysRecv,
        TenantStore.Keys, writeBack_same s t ts hl]

theorem tenantCountRecv_eq (s : Store) : s.TenantCountRecv = (s, s.TenantCount) := rfl

end ReadFacts

/-! ## The claims -/

/-- C1: for every registry state, every non-empty tenant identifier `t`, every
non-empty key `k` and every byte sequence `v`, `Store.Set t k v` returns no
error and a `Store.Get t k` made right after it returns `(v, true)`. The state
`s` is arbitrary, so `k` may already hold an earlier value in `t`. -/
theorem C1_set_then_get (s : Store) (t k : String) (v : Bytes)
    (ht : t ≠ "") (hk : k ≠ "") :
    (s.Set t k v).2 = none ∧ (s.Set t k v).1.Get t k = (v, true) := by
  constructor
  · rw [set_err s t k v ht]
    simp [TenantStore.Set, hk]
  · unfold Store.Get
    rw [if_neg ht, set_lookup_self s t k v ht]
    simp [TenantStore.Set, TenantStore.Get, hk, AList.lookup_insert, copy_make]

/-- Witness of C1: a second write to the key "greeting" of tenant "t1". -/
theorem C1_set_then_get_witness :
    ((NewStore.Set "t1" "greeting" [1]).1.Set "t1" "greeting" [104, 105]).2 = none ∧
    (((NewStore.Set "t1" "greeting" [1]).1.Set "t1" "greeting" [104, 105]).1.Get
      "t1" "greeting") = ([104, 105], true) :=
  C1_set_then_get (NewStore.Set "t1" "greeting" [1]).1 "t1" "greeting" [104, 105]
    (by decide) (by decide)

/-- C2: for tenant identifiers `T1 ≠ T2`, every key `K` and every value,
`Store.Set T1 K v` leaves the results of `Store.Get T2 K`, `Store.Exists T2 K`
and `Store.Keys T2` as they were before the call. -/
theorem C2_set_isolation (s : Store) (T1 T2 K : String) (v : Bytes) (h : T1 ≠ T2) :
    (s.Set T1 K v).1.Get T2 K = s.Get T2 K ∧
    (s.Set T1 K v).1.Exists T2 K = s.Exists T2 K ∧
    (s.Set T1 K v).1.Keys T2 = s.Keys T2 := by
  have e := set_lookup_ne s T1 K v (Ne.symm h)
  simp only [Store.Get, Store.Exists, Store.Keys, e, and_self]

/-- Witness of C2: tenant "t2" holds "k", then "k" is set in tenant "t1". -/
theorem C2_set_isolation_witness :
    ((NewStore.Set "t2" "k" [98]).1.Set "t1" "k" [97]).1.Get "t2" "k" =
      (NewStore.Set "t2" "k" [98]).1.Get "t2" "k" ∧
    ((NewStore.Set "t2" "k" [98]).1.Set "t1" "k" [97]).1.Exists "t2" "k" =
      (NewStore.Set "t2" "k" [98]).1.Exists "t2" "k" ∧
    ((NewStore.Set "t2" "k" [98]).1.Set "t1" "k" [97]).1.Keys "t2" =
      (NewStore.Set "t2" "k" [98]).1.Keys "t2" :=
  C2_set_isolation (NewStore.Set "t2" "k" [98]).1 "t1" "t2" "k" [97] (by decide)

/-- C3: `Store.Set t k v` returns an error exactly when `t` or `k` is the empty
string; the error is "tenant ID cannot be empty" when `t` is empty and
"key cannot be empty" when `t` is non-empty and `k` is empty; no other error is
produced. -/
theorem C3_set_error_iff (s : Store) (t k : String) (v : Bytes) :
    ((s.Set t k v).2 ≠ none ↔ (t = "" ∨ k = "")) ∧
    (t = "" → (s.Set t k v).2 = some "tenant ID cannot be empty") ∧
    (t ≠ "" → k = "" → (s.Set t k v).2 = some "key cannot be empty") ∧
    (∀ e, (s.Set t k v).2 = some e →
      e = "tenant ID cannot be empty" ∨ e = "key cannot be empty") := by
  by_cases ht : t = ""
  · simp [Store.Set, ht]
  · have e := set_err s t k v ht
    by_cases hk : k = ""
    · subst hk
      simp [e, TenantStore.Set, ht]
    · simp [e, TenantStore.Set, ht, hk]

/-- Witness of C3: the empty key in a non-empty tenant. -/
theorem C3_set_error_iff_witness :
    (NewStore.Set "t1" "" [1]).2 = some "key cannot be empty" :=
  (C3_set_error_iff NewStore "t1" "" [1]).2.2.1 (by decide) rfl

/-- C4: `Store.Set "" key value` fails with "tenant ID cannot be empty" and
stores nothing: the state after the call is the state before it, so
`TenantCount` and every `Get`, `Exists` and `Keys` result are the same. -/
theorem C4_set_empty_tenant (s : Store) (key : String) (value : Bytes) :
    (s.Set "" key value).2 = some "tenant ID cannot be empty" ∧
    (s.Set "" key value).1 = s ∧
    (s.Set "" key value).1.TenantCount = s.TenantCount ∧
    (∀ t k, (s.Set "" key value).1.Get t k = s.Get t k ∧
      (s.Set "" key value).1.Exists t k = s.Exists t k ∧
      (s.Set "" key value).1.Keys t = s.Keys t) := by
  have e : s.Set "" key value = (s, some "tenant ID cannot be empty") := by
    simp [Store.Set]
  simp [e]

/-- C5, evaluated at the failing input: in a new registry `Store.Set "t1" "" v`
returns "key cannot be empty", yet it has registered a namespace for "t1":
`TenantCount` goes from 0 to 1 and `DeleteTenant "t1"` then finds a namespace
to remove. -/
theorem C5_set_empty_key_registers_tenant :
    NewStore.TenantCount = 0 ∧
    (NewStore.Set "t1" "" [118]).2 = some "key cannot be empty" ∧
    (NewStore.Set "t1" "" [118]).1.TenantCount = 1 ∧
    ((NewStore.Set "t1" "" [118]).1.DeleteTenant "t1").2 = true := by
  decide

/-- C6 as stated fails for the empty tenant identifier: `Store.Set "" "" v`
reports "tenant ID cannot be empty", not "key cannot be empty". -/
theorem C6_counterexample :
    (NewStore.Set "" "" [118]).2 = some "tenant ID cannot be empty" ∧
    (NewStore.Set "" "" [118]).2 ≠ some "key cannot be empty" := by
  decide

/-- C6, amended: `Store.Set tenant "" v` always fails; the error is
"key cannot be empty" for every non-empty tenant identifier and
"tenant ID cannot be empty" for the empty one, the tenant being checked
first. -/
theorem C6_set_empty_key_error (s : Store) (tenant : String) (v : Bytes) :
    (s.Set tenant "" v).2 =
      some (if tenant = "" then "tenant ID cannot be empty" else "key cannot be empty") := by
  by_cases ht : tenant = ""
  · simp [Store.Set, ht]
  · simp [set_err s tenant "" v ht, TenantStore.Set, ht]

/-- C7: when key `k` is not stored in tenant `t` (also when `t` has no
namespace or is empty), `Store.Delete t k` returns `false` and leaves the
registry state unchanged. -/
theorem C7_delete_absent (s : Store) (t k : String) (h : s.Exists t k = false) :
    s.Delete t k = (s, false) := by
  by_cases ht : t = ""
  · simp [Store.Delete, ht]
  · cases hl : s.tenants.lookup t with
    | none => simp [Store.Delete, ht, hl]
    | some ts =>
      have hk : ts.Exists k = false := by
        simpa [Store.Exists, ht, hl] using h
      rw [delete_eq s t k ts ht hl, tenantDelete_absent ts k hk]
      simp only [Store.writeBack]
      rw [replace_of_lookup hl]

/-- Witness of C7: tenant "t1" holds "a" and "missing" is deleted. -/
theorem C7_delete_absent_witness :
    (NewStore.Set "t1" "a" [1]).1.Delete "t1" "missing" =
      ((NewStore.Set "t1" "a" [1]).1, false) :=
  C7_delete_absent (NewStore.Set "t1" "a" [1]).1 "t1" "missing" (by decide)

/-- C8: in every state in which key `k` is stored (in a namespace, or in tenant
`t` of the registry), two calls of `Delete` on `k` in a row return `true` and
then `false`. -/
theorem C8_delete_twice :
    (∀ (ts : TenantStore) (k : String), ts.Exists k = true →
      (ts.Delete k).2 = true ∧ ((ts.Delete k).1.Delete k).2 = false) ∧
    (∀ (s : Store) (t k : String), s.Exists t k = true →
      (s.Delete t k).2 = true ∧ ((s.Delete t k).1.Delete t k).2 = false) := by
  constructor
  · intro ts k h
    refine ⟨by rw [tenantDelete_present ts k h], ?_⟩
    rw [tenantDelete_absent _ k (tenantDelete_exists ts k)]
  · intro s t k h
    have ht : t ≠ "" := by
      intro e
      simp [Store.Exists, e] at h
    cases hl : s.tenants.lookup t with
    | none => simp [Store.Exists, ht, hl] at h
    | some ts =>
      have hk : ts.Exists k = true := by
        simpa [Store.Exists, ht, hl] using h
      have h1 := delete_lookup_self s t k ts ht hl
      refine ⟨by rw [delete_eq s t k ts ht hl, tenantDelete_present ts k hk], ?_⟩
      rw [delete_eq (s.Delete t k).1 t k _ ht h1,
        tenantDelete_absent _ k (tenantDelete_exists ts k)]

/-- Witness of C8: the key "test-key" of a namespace and of tenant "t1". -/
theorem C8_delete_twice_witness :
    (((NewTenantStore.Set "test-key" [1]).1.Delete "test-key").2 = true ∧
      (((NewTenantStore.Set "test-key" [1]).1.Delete "test-key").1.Delete "test-key").2
        = false) ∧
    (((NewStore.Set "t1" "test-key" [1]).1.Delete "t1" "test-key").2 = true ∧
      (((NewStore.Set "t1" "test-key" [1]).1.Delete "t1" "test-key").1.Delete
        "t1" "test-key").2 = false) :=
  ⟨C8_delete_twice.1 (NewTenantStore.Set "test-key" [1]).1 "test-key" (by decide),
    C8_delete_twice.2 (NewStore.Set "t1" "test-key" [1]).1 "t1" "test-key" (by decide)⟩

/-- C9: after `Store.Delete t k`, whatever it returned, `Store.Exists t k` is
`false` and `Store.Get t k` reports not found (it returns `(nil, false)`); in
particular a key that was set and then deleted no longer exists. -/
theorem C9_delete_then_absent (s : Store) (t k : String) :
    (s.Delete t k).1.Exists t k = false ∧
    (s.Delete t k).1.Get t k = ([], false) ∧
    (∀ v : Bytes, ((s.Set t k v).1.Delete t k).1.Exists t k = false ∧
      (((s.Set t k v).1.Delete t k).1.Get t k).2 = false) := by
  have key : ∀ s0 : Store, (s0.Delete t k).1.Exists t k = false ∧
      (s0.Delete t k).1.Get t k = ([], false) := by
    intro s0
    by_cases ht : t = ""
    · simp [Store.Exists, Store.Get, ht]
    · cases hl : s0.tenants.lookup t with
      | none => simp [Store.Delete, Store.Exists, Store.Get, ht, hl]
      | some ts =>
        have h1 := delete_lookup_self s0 t k ts ht hl
        have h2 := tenantDelete_exists ts k
        simp only [Store.Exists, Store.Get, if_neg ht, h1, h2,
          tenantGet_absent _ k h2, and_self]
  refine ⟨(key s).1, (key s).2, fun v => ⟨(key _).1, ?_⟩⟩
  rw [(key _).2]

/-- C10: for a tenant identifier that is empty or has no namespace, and every
key, `Store.Get` returns `(nil, false)`, `Store.Delete` returns `false`,
`Store.Exists` returns `false` and `Store.Keys` returns an empty sequence.
None of the four has an error result. -/
theorem C10_unknown_tenant (s : Store) (t k : String)
    (h : t = "" ∨ s.tenants.lookup t = none) :
    s.Get t k = ([], false) ∧ (s.Delete t k).2 = false ∧
    s.Exists t k = false ∧ s.Keys t = [] := by
  by_cases ht : t = ""
  · simp [Store.Get, Store.Delete, Store.Exists, Store.Keys, ht]
  · have hl : s.tenants.lookup t = none := h.resolve_left ht
    simp [Store.Get, Store.Delete, Store.Exists, Store.Keys, ht, hl]

/-- Witness of C10: the tenant "t2" of a registry that only knows "t1". -/
theorem C10_unknown_tenant_witness :
    (NewStore.Set "t1" "k" [1]).1.Get "t2" "k" = ([], false) ∧
    ((NewStore.Set "t1" "k" [1]).1.Delete "t2" "k").2 = false ∧
    (NewStore.Set "t1" "k" [1]).1.Exists "t2" "k" = false ∧
    (NewStore.Set "t1" "k" [1]).1.Keys "t2" = [] :=
  C10_unknown_tenant (NewStore.Set "t1" "k" [1]).1 "t2" "k" (Or.inr (by rfl))

/-! ## Which tenants have a namespace -/

section NamespaceFacts

theorem count_eq_keys (s : Store) : s.TenantCount = s.tenants.keys.length := by
  simp [Store.TenantCount, AList.keys, List.keys]

theorem size_eq_keys (ts : TenantStore) : ts.Size = ts.Keys.length := by
  simp [TenantStore.Size, TenantStore.Keys, AList.keys, List.keys]

theorem writeBack_keys (s : Store) (t : String) (ts : TenantStore) :
    (s.writeBack t ts).tenants.keys = s.tenants.keys := by
  unfold Store.writeBack
  exact AList.keys_replace t ts s.tenants

theorem keys_insert_absent {α : Type} {β : α → Type} [DecidableEq α] {a : α} (b : β a)
    {m : AList β} (h : m.lookup a = none) : (m.insert a b).keys = a :: m.keys := by
  rw [AList.keys_insert, List.erase_of_not_mem]
  exact AList.mem_keys.not.mp (AList.lookup_eq_none.mp h)

theorem getTenantStore_keys (s : Store) (t : String) :
    (s.getTenantStore t).1.tenants.keys =
      if (s.tenants.lookup t).isSome then s.tenants.keys else t :: s.tenants.keys := by
  unfold Store.getTenantStore
  cases h : s.tenants.lookup t
  · simp [keys_insert_absent _ h]
  · simp

theorem set_keys (s : Store) (t k : String) (v : Bytes) (ht : t ≠ "") :
    (s.Set t k v).1.tenants.keys =
      if (s.tenants.lookup t).isSome then s.tenants.keys else t :: s.tenants.keys := by
  rw [set_eq s t k v ht, writeBack_keys, getTenantStore_keys]

theorem delete_keys (s : Store) (t k : String) :
    (s.Delete t k).1.tenants.keys = s.tenants.keys := by
  by_cases ht : t = ""
  · simp [Store.Delete, ht]
  · cases hl : s.tenants.lookup t with
    | none => simp [Store.Delete, ht, hl]
    | some ts => rw [delete_eq s t k ts ht hl, writeBack_keys]

theorem delete_lookup_isSome (s : Store) (t k t2 : String) :
    ((s.Delete t k).1.tenants.lookup t2).isSome = (s.tenants.lookup t2).isSome := by
  have h := delete_keys s t k
  rw [Bool.eq_iff_iff, AList.lookup_isSome, AList.lookup_isSome, AList.mem_keys,
    AList.mem_keys, h]

theorem deleteTenant_present (s : Store) (t : String)
    (h : (s.tenants.lookup t).isSome = true) :
    s.DeleteTenant t = (⟨s.tenants.erase t⟩, true) := by
  simp [Store.DeleteTenant, h]

theorem deleteTenant_absent (s : Store) (t : String)
    (h : (s.tenants.lookup t).isSome = false) :
    s.DeleteTenant t = (s, false) := by
  simp [Store.DeleteTenant, h]

theorem deleteTenant_count (s : Store) (t : String)
    (h : (s.tenants.lookup t).isSome = true) :
    (s.DeleteTenant t).1.TenantCount + 1 = s.TenantCount := by
  rw [deleteTenant_present s t h, count_eq_keys, count_eq_keys, AList.keys_erase]
  exact List.length_erase_add_one (AList.mem_keys.mp (AList.lookup_isSome.mp h))

end NamespaceFacts

/-- C11: `Store.Get`, `Store.Exists`, `Store.Keys` and `Store.Delete` never
create a namespace: for every registry state and every tenant identifier, the
tenants that have a namespace, and hence `TenantCount`, are the same after the
call as before it. The reading methods are taken with the receiver they leave
(`GetRecv`, `ExistsRecv`, `KeysRecv`, which `Store.call` runs); their results
are those of `Get`, `Exists` and `Keys`. -/
theorem C11_reads_create_no_namespace (s : Store) (t k : String) :
    ((s.call (.get t k)).tenants.keys = s.tenants.keys ∧
      (s.call (.get t k)).TenantCount = s.TenantCount) ∧
    ((s.call (.exist t k)).tenants.keys = s.tenants.keys ∧
      (s.call (.exist t k)).TenantCount = s.TenantCount) ∧
    ((s.call (.keys t)).tenants.keys = s.tenants.keys ∧
      (s.call (.keys t)).TenantCount = s.TenantCount) ∧
    ((s.call (.delete t k)).tenants.keys = s.tenants.keys ∧
      (s.call (.delete t k)).TenantCount = s.TenantCount) ∧
    ((s.Delete t k).1.tenants.keys = s.tenants.keys ∧
      (s.Delete t k).1.TenantCount = s.TenantCount) ∧
    ((s.GetRecv t k).1.tenants.keys = s.tenants.keys ∧
      (s.GetRecv t k).1.TenantCount = s.TenantCount ∧ (s.GetRecv t k).2 = s.Get t k) ∧
    ((s.ExistsRecv t k).1.tenants.keys = s.tenants.keys ∧
      (s.ExistsRecv t k).1.TenantCount = s.TenantCount ∧
      (s.ExistsRecv t k).2 = s.Exists t k) ∧
    ((s.KeysRecv t).1.tenants.keys = s.tenants.keys ∧
      (s.KeysRecv t).1.TenantCount = s.TenantCount ∧ (s.KeysRecv t).2 = s.Keys t) := by
  have h := delete_keys s t k
  have hc : (s.Delete t k).1.TenantCount = s.TenantCount := by
    rw [count_eq_keys, count_eq_keys, h]
  have hg := getRecv_eq s t k
  have he := existsRecv_eq s t k
  have hk := keysRecv_eq s t
  refine ⟨?_, ?_, ?_, ⟨h, hc⟩, ⟨h, hc⟩, ?_, ?_, ?_⟩
  · simp only [Store.call, hg, and_self]
  · simp only [Store.call, he, and_self]
  · simp only [Store.call, hk, and_self]
  · simp only [hg, and_self]
  · simp only [he, and_self]
  · simp only [hk, and_self]

/-- C12: a new registry has `TenantCount` 0, and a successful `Store.Set t k v`
raises `TenantCount` by exactly 1 when `t` had no namespace and leaves it
unchanged when `t` already had one. -/
theorem C12_tenant_count_set :
    NewStore.TenantCount = 0 ∧
    (∀ (s : Store) (t k : String) (v : Bytes), (s.Set t k v).2 = none →
      ((s.tenants.lookup t).isSome = false →
        (s.Set t k v).1.TenantCount = s.TenantCount + 1) ∧
      ((s.tenants.lookup t).isSome = true →
        (s.Set t k v).1.TenantCount = s.TenantCount)) := by
  refine ⟨rfl, ?_⟩
  intro s t k v hok
  have ht : t ≠ "" := by
    intro e
    simp [Store.Set, e] at hok
  have hkeys := set_keys s t k v ht
  constructor
  · intro h
    rw [count_eq_keys, count_eq_keys, hkeys, h]
    simp
  · intro h
    rw [count_eq_keys, count_eq_keys, hkeys, h]
    simp

/-- Witness of C12: the first write to "tenant1" and a write of another key to
it. -/
theorem C12_tenant_count_set_witness :
    (NewStore.Set "tenant1" "key" [1]).1.TenantCount = NewStore.TenantCount + 1 ∧
    ((NewStore.Set "tenant1" "key" [1]).1.Set "tenant1" "key2" [2]).1.TenantCount =
      (NewStore.Set "tenant1" "key" [1]).1.TenantCount :=
  ⟨(C12_tenant_count_set.2 NewStore "tenant1" "key" [1] (by decide)).1 (by decide),
    (C12_tenant_count_set.2 (NewStore.Set "tenant1" "key" [1]).1 "tenant1" "key2" [2]
      (by decide)).2 (by decide)⟩

/-- C13: `Store.Delete` never changes `TenantCount` nor which tenants have a
namespace; so a tenant with a namespace still has it after a `Delete`, also
when the `Delete` left it without keys, and it is counted until
`DeleteTenant` removes the namespace, which lowers `TenantCount` by 1. -/
theorem C13_delete_keeps_tenant_count (s : Store) (t k : String) :
    (s.Delete t k).1.TenantCount = s.TenantCount ∧
    (∀ t2, ((s.Delete t k).1.tenants.lookup t2).isSome = (s.tenants.lookup t2).isSome) ∧
    ((s.tenants.lookup t).isSome = true →
      ((s.Delete t k).1.DeleteTenant t).2 = true ∧
      ((s.Delete t k).1.DeleteTenant t).1.TenantCount + 1 = s.TenantCount) := by
  have hc : (s.Delete t k).1.TenantCount = s.TenantCount := by
    rw [count_eq_keys, count_eq_keys, delete_keys]
  refine ⟨hc, delete_lookup_isSome s t k, ?_⟩
  intro h
  have h1 : ((s.Delete t k).1.tenants.lookup t).isSome = true := by
    rw [delete_lookup_isSome, h]
  refine ⟨by rw [deleteTenant_present _ t h1], ?_⟩
  rw [deleteTenant_count _ t h1, hc]

/-- Witness of C13: the only key of "t1" is deleted; `Keys` is then empty and
the tenant is still counted, until `DeleteTenant`. -/
theorem C13_delete_keeps_tenant_count_witness :
    ((NewStore.Set "t1" "a" [1]).1.Delete "t1" "a").1.Keys "t1" = [] ∧
    ((NewStore.Set "t1" "a" [1]).1.Delete "t1" "a").1.TenantCount = 1 ∧
    (((NewStore.Set "t1" "a" [1]).1.Delete "t1" "a").1.DeleteTenant "t1").2 = true ∧
    (((NewStore.Set "t1" "a" [1]).1.Delete "t1" "a").1.DeleteTenant "t1").1.TenantCount + 1
      = (NewStore.Set "t1" "a" [1]).1.TenantCount :=
  ⟨by decide, by decide,
    (C13_delete_keeps_tenant_count (NewStore.Set "t1" "a" [1]).1 "t1" "a").2.2 (by decide)⟩

/-- C14: `Store.DeleteTenant t` returns `true` exactly when `t` had a namespace.
When it returns `true`, `TenantCount` drops by exactly 1 and every key of `t`
is gone (`Get` not found, `Exists` false, `Keys t` empty); when it returns
`false` the registry is unchanged; a second `DeleteTenant t` right after the
first returns `false`. -/
theorem C14_delete_tenant (s : Store) (t : String) :
    ((s.DeleteTenant t).2 = true ↔ (s.tenants.lookup t).isSome = true) ∧
    ((s.DeleteTenant t).2 = true →
      (s.DeleteTenant t).1.TenantCount + 1 = s.TenantCount ∧
      (∀ k, (s.DeleteTenant t).1.Get t k = ([], false) ∧
        (s.DeleteTenant t).1.Exists t k = false) ∧
      (s.DeleteTenant t).1.Keys t = []) ∧
    ((s.DeleteTenant t).2 = false → (s.DeleteTenant t).1 = s) ∧
    ((s.DeleteTenant t).1.DeleteTenant t).2 = false := by
  cases h : (s.tenants.lookup t).isSome
  · rw [deleteTenant_absent s t h]
    simp [deleteTenant_absent s t h]
  · have hc := deleteTenant_count s t h
    rw [deleteTenant_present s t h] at hc ⊢
    have hl : (s.tenants.erase t).lookup t = none := AList.lookup_erase t s.tenants
    refine ⟨by simp, fun _ => ⟨hc, fun k => ?_, ?_⟩, by simp, ?_⟩
    · by_cases ht : t = "" <;> simp [Store.Get, Store.Exists, ht, hl]
    · by_cases ht : t = "" <;> simp [Store.Keys, ht, hl]
    · rw [deleteTenant_absent _ t (by simp [hl])]

/-- Witness of C14: tenant "tenant1" with two keys is deleted. -/
theorem C14_delete_tenant_witness :
    ((NewStore.run [.set "tenant1" "key1" [1], .set "tenant1" "key2" [2]]).DeleteTenant
        "tenant1").1.TenantCount + 1 =
      (NewStore.run [.set "tenant1" "key1" [1], .set "tenant1" "key2" [2]]).TenantCount ∧
    (∀ k, ((NewStore.run [.set "tenant1" "key1" [1], .set "tenant1" "key2" [2]]).DeleteTenant
        "tenant1").1.Get "tenant1" k = ([], false) ∧
      ((NewStore.run [.set "tenant1" "key1" [1], .set "tenant1" "key2" [2]]).DeleteTenant
        "tenant1").1.Exists "tenant1" k = false) ∧
    ((NewStore.run [.set "tenant1" "key1" [1], .set "tenant1" "key2" [2]]).DeleteTenant
        "tenant1").1.Keys "tenant1" = [] :=
  (C14_delete_tenant (NewStore.run [.set "tenant1" "key1" [1], .set "tenant1" "key2" [2]])
    "tenant1").2.1 (by decide)

section EraseFacts

variable {α : Type} {β : α → Type} [DecidableEq α]

theorem kerase_kreplace (a : α) (b : β a) (l : List (Sigma β)) :
    List.kerase a (List.kreplace a b l) = List.kerase a l := by
  induction l with
  | nil => rfl
  | cons x xs ih =>
    obtain ⟨k, w⟩ := x
    by_cases hk : a = k
    · subst hk
      have e : List.kreplace a b (⟨a, w⟩ :: xs) = ⟨a, b⟩ :: xs := by
        simp [List.kreplace, List.lookmap_cons_some]
      rw [e, @List.kerase_cons_eq _ _ _ a ⟨a, b⟩ xs rfl,
        @List.kerase_cons_eq _ _ _ a ⟨a, w⟩ xs rfl]
    · have e : List.kreplace a b (⟨k, w⟩ :: xs) = ⟨k, w⟩ :: List.kreplace a b xs := by
        simp [List.kreplace, List.lookmap_cons_none, hk]
      rw [e, List.kerase_cons_ne hk, List.kerase_cons_ne hk, ih]

theorem erase_replace (a : α) (b : β a) (m : AList β) :
    (m.replace a b).erase a = m.erase a :=
  AList.ext (kerase_kreplace a b m.entries)

theorem erase_insert (a : α) (b : β a) (m : AList β) :
    (m.insert a b).erase a = m.erase a := by
  apply AList.ext
  simp only [AList.erase, AList.insert, List.kinsert_def]
  exact List.kerase_cons_eq rfl

end EraseFacts

section TenantLifeFacts

theorem getTenantStore_erase (s : Store) (t : String) :
    (s.getTenantStore t).1.tenants.erase t = s.tenants.erase t := by
  unfold Store.getTenantStore
  cases h : s.tenants.lookup t
  · simp [erase_insert]
  · simp

theorem set_erase (s : Store) (t k : String) (v : Bytes) :
    (s.Set t k v).1.tenants.erase t = s.tenants.erase t := by
  by_cases ht : t = ""
  · simp [Store.Set, ht]
  · rw [set_eq s t k v ht]
    simp only [Store.writeBack]
    rw [erase_replace, getTenantStore_erase]

theorem delete_erase (s : Store) (t k : String) :
    (s.Delete t k).1.tenants.erase t = s.tenants.erase t := by
  by_cases ht : t = ""
  · simp [Store.Delete, ht]
  · cases hl : s.tenants.lookup t with
    | none => simp [Store.Delete, ht, hl]
    | some ts =>
      rw [delete_eq s t k ts ht hl]
      simp only [Store.writeBack]
      rw [erase_replace]

theorem run_on_erase (t : String) (cs : List TenantCall) :
    ∀ s : Store, (s.run (cs.map (TenantCall.on t))).tenants.erase t = s.tenants.erase t := by
  induction cs with
  | nil => intro s; rfl
  | cons c cs ih =>
    intro s
    simp only [List.map_cons, Store.run]
    rw [ih]
    cases c with
    | set key value => exact set_erase s t key value
    | delete key => exact delete_erase s t key

theorem deleteTenant_tenants (s : Store) (t : String) :
    (s.DeleteTenant t).1.tenants = s.tenants.erase t := by
  cases h : (s.tenants.lookup t).isSome
  · rw [deleteTenant_absent s t h, erase_of_lookup_none]
    simpa using h
  · rw [deleteTenant_present s t h]

end TenantLifeFacts

/-- C15: from a registry state `s` in which tenant `t` has no namespace, any
finite sequence of `Set` and `Delete` calls on tenant `t` followed by
`DeleteTenant t` leads back to `s`: `Get`, `Exists` and `Keys` (for every
tenant and key) and `TenantCount` return what they return in `s`. -/
theorem C15_deleted_tenant_like_new (s : Store) (t : String) (cs : List TenantCall)
    (h : (s.tenants.lookup t).isSome = false) :
    ((s.run (cs.map (TenantCall.on t))).DeleteTenant t).1 = s ∧
    (∀ t2 k,
      ((s.run (cs.map (TenantCall.on t))).DeleteTenant t).1.Get t2 k = s.Get t2 k ∧
      ((s.run (cs.map (TenantCall.on t))).DeleteTenant t).1.Exists t2 k = s.Exists t2 k ∧
      ((s.run (cs.map (TenantCall.on t))).DeleteTenant t).1.Keys t2 = s.Keys t2) ∧
    ((s.run (cs.map (TenantCall.on t))).DeleteTenant t).1.TenantCount = s.TenantCount := by
  have e : ((s.run (cs.map (TenantCall.on t))).DeleteTenant t).1 = s := by
    have h1 := deleteTenant_tenants (s.run (cs.map (TenantCall.on t))) t
    rw [run_on_erase t cs s, erase_of_lookup_none (by simpa using h)] at h1
    cases hs : ((s.run (cs.map (TenantCall.on t))).DeleteTenant t).1 with
    | mk m =>
      rw [hs] at h1
      cases s
      simp only at h1
      rw [h1]
  rw [e]
  simp

/-- Witness of C15: tenant "t1" is written to (once with an empty key), emptied
in part and then deleted, next to a tenant "t2" that stays. -/
theorem C15_deleted_tenant_like_new_witness :
    (((NewStore.Set "t2" "x" [1]).1.run
      ([TenantCall.set "a" [1], .set "" [2], .delete "a", .set "b" [3]].map
        (TenantCall.on "t1"))).DeleteTenant "t1").1.TenantCount
      = (NewStore.Set "t2" "x" [1]).1.TenantCount :=
  (C15_deleted_tenant_like_new (NewStore.Set "t2" "x" [1]).1 "t1"
    [TenantCall.set "a" [1], .set "" [2], .delete "a", .set "b" [3]] (by decide)).2.2

section KeyFacts

theorem tenantExists_iff_mem (ts : TenantStore) (k : String) :
    ts.Exists k = true ↔ k ∈ ts.Keys := by
  unfold TenantStore.Exists TenantStore.Keys
  rw [AList.lookup_isSome, AList.mem_keys]

theorem tenantSet_ok (ts : TenantStore) (k : String) (v : Bytes) (hk : k ≠ "") :
    ts.Set k v = (⟨ts.data.insert k v⟩, none) := by
  simp [TenantStore.Set, hk, copy_make]

theorem tenantSet_rejected (ts : TenantStore) (v : Bytes) :
    ts.Set "" v = (ts, some "key cannot be empty") := by
  simp [TenantStore.Set]

theorem tenantSet_keys (ts : TenantStore) (k : String) (v : Bytes) (hk : k ≠ "") :
    (ts.Set k v).1.Keys = k :: ts.Keys.erase k := by
  rw [tenantSet_ok ts k v hk]
  exact AList.keys_insert ts.data

end KeyFacts

/-- C16: `Keys` returns exactly the stored keys: in every namespace state a key
occurs in `Keys()` if and only if `Exists` is true for it, and no key occurs
twice. After setting the distinct keys "a", "b", "c" (with any values) in an
empty namespace, or in a tenant of a new registry, `Keys` has 3 elements, those
of the set {a, b, c}; `Keys` of a new namespace is empty. -/
theorem C16_keys_exact :
    (∀ (ts : TenantStore) (k : String), k ∈ ts.Keys ↔ ts.Exists k = true) ∧
    (∀ ts : TenantStore, ts.Keys.Nodup) ∧
    (∀ va vb vc : Bytes,
      (NewTenantStore.run [.set "a" va, .set "b" vb, .set "c" vc]).Keys.length = 3 ∧
      (∀ k, k ∈ (NewTenantStore.run [.set "a" va, .set "b" vb, .set "c" vc]).Keys ↔
        (k = "a" ∨ k = "b" ∨ k = "c"))) ∧
    ((NewStore.run [.set "t1" "a" [1], .set "t1" "b" [2], .set "t1" "c" [3]]).Keys
        "t1").length = 3 ∧
    (∀ k, k ∈ (NewStore.run [.set "t1" "a" [1], .set "t1" "b" [2], .set "t1" "c" [3]]).Keys
        "t1" ↔ (k = "a" ∨ k = "b" ∨ k = "c")) ∧
    NewTenantStore.Keys = [] := by
  refine ⟨fun ts k => (tenantExists_iff_mem ts k).symm, fun ts => ts.data.keys_nodup,
    ?_, ?_, ?_, rfl⟩
  · intro va vb vc
    have e : (NewTenantStore.run [.set "a" va, .set "b" vb, .set "c" vc]).Keys
        = ["c", "b", "a"] := by
      simp only [TenantStore.run, TenantStore.call]
      rw [tenantSet_keys _ "c" vc (by decide), tenantSet_keys _ "b" vb (by decide),
        tenantSet_keys _ "a" va (by decide)]
      decide
    rw [e]
    refine ⟨rfl, fun k => ?_⟩
    simp only [List.mem_cons, List.mem_singleton, List.not_mem_nil, or_false]
    tauto
  · decide
  · have e : (NewStore.run [.set "t1" "a" [1], .set "t1" "b" [2], .set "t1" "c" [3]]).Keys
        "t1" = ["c", "b", "a"] := by decide
    intro k
    rw [e]
    simp only [List.mem_cons, List.mem_singleton, List.not_mem_nil, or_false]
    tauto

/-- C17: `TenantStore.Size` is the number of stored keys: 0 for a new tenant
store and always the length of `Keys()`; a successful `Set` raises it by 1 when
the key was absent and leaves it unchanged when the key was present; `Delete`
lowers it by 1 when it returns `true` and leaves it unchanged when it returns
`false`. -/
theorem C17_size :
    NewTenantStore.Size = 0 ∧
    (∀ ts : TenantStore, ts.Size = ts.Keys.length) ∧
    (∀ (ts : TenantStore) (k : String) (v : Bytes), (ts.Set k v).2 = none →
      (ts.Exists k = false → (ts.Set k v).1.Size = ts.Size + 1) ∧
      (ts.Exists k = true → (ts.Set k v).1.Size = ts.Size)) ∧
    (∀ (ts : TenantStore) (k : String),
      ((ts.Delete k).2 = true → (ts.Delete k).1.Size + 1 = ts.Size) ∧
      ((ts.Delete k).2 = false → (ts.Delete k).1.Size = ts.Size)) := by
  refine ⟨rfl, size_eq_keys, ?_, ?_⟩
  · intro ts k v hok
    have hk : k ≠ "" := by
      intro e
      simp [TenantStore.Set, e] at hok
    rw [size_eq_keys, size_eq_keys, tenantSet_keys ts k v hk]
    constructor
    · intro h
      have hn : k ∉ ts.Keys := by
        rw [← tenantExists_iff_mem, h]
        simp
      rw [List.erase_of_not_mem hn]
      rfl
    · intro h
      have hm : k ∈ ts.Keys := (tenantExists_iff_mem ts k).mp h
      rw [List.length_cons, List.length_erase_add_one hm]
  · intro ts k
    cases h : ts.Exists k
    · rw [tenantDelete_absent ts k h]
      simp
    · rw [tenantDelete_present ts k h]
      have hm : k ∈ ts.Keys := (tenantExists_iff_mem ts k).mp h
      refine ⟨fun _ => ?_, by simp⟩
      rw [size_eq_keys, size_eq_keys]
      simp only [TenantStore.Keys, AList.keys_erase]
      exact List.length_erase_add_one hm

/-- Witness of C17: a first and a second write to "key1", then its removal. -/
theorem C17_size_witness :
    ((NewTenantStore.Set "key1" [1]).1.Size = NewTenantStore.Size + 1) ∧
    (((NewTenantStore.Set "key1" [1]).1.Set "key1" [2]).1.Size =
      (NewTenantStore.Set "key1" [1]).1.Size) ∧
    (((NewTenantStore.Set "key1" [1]).1.Delete "key1").1.Size + 1 =
      (NewTenantStore.Set "key1" [1]).1.Size) :=
  ⟨(C17_size.2.2.1 NewTenantStore "key1" [1] (by decide)).1 (by decide),
    (C17_size.2.2.1 (NewTenantStore.Set "key1" [1]).1 "key1" [2] (by decide)).2 (by decide),
    (C17_size.2.2.2 (NewTenantStore.Set "key1" [1]).1 "key1").1 (by decide)⟩

section EmptyNameFacts

theorem tenantCall_keeps_empty_key_out (ts : TenantStore) (c : TenantCall)
    (h : ts.data.lookup "" = none) : (ts.call c).data.lookup "" = none := by
  cases c with
  | set key value =>
    by_cases hk : key = ""
    · subst hk
      simp only [TenantStore.call]
      rw [tenantSet_rejected]
      exact h
    · simp only [TenantStore.call]
      rw [tenantSet_ok ts key value hk]
      simp only
      rw [AList.lookup_insert_ne (Ne.symm hk)]
      exact h
  | delete key =>
    simp only [TenantStore.call]
    cases he : ts.Exists key
    · rw [tenantDelete_absent ts key he]
      exact h
    · rw [tenantDelete_present ts key he]
      by_cases hk : key = ""
      · subst hk
        exact AList.lookup_erase "" ts.data
      · simp only
        rw [AList.lookup_erase_ne (Ne.symm hk)]
        exact h

theorem tenantRun_keeps_empty_key_out (cs : List TenantCall) :
    ∀ ts : TenantStore, ts.data.lookup "" = none → (ts.run cs).data.lookup "" = none := by
  induction cs with
  | nil => intro ts h; exact h
  | cons c cs ih =>
    intro ts h
    exact ih (ts.call c) (tenantCall_keeps_empty_key_out ts c h)

theorem call_keeps_empty_tenant_out (s : Store) (c : Call)
    (h : s.tenants.lookup "" = none) : (s.call c).tenants.lookup "" = none := by
  cases c with
  | set tenantID key value =>
    by_cases ht : tenantID = ""
    · subst ht
      simpa [Store.call, Store.Set] using h
    · simp only [Store.call]
      rw [set_lookup_ne s tenantID key value (Ne.symm ht)]
      exact h
  | get tenantID key =>
    simp only [Store.call, getRecv_eq]
    exact h
  | delete tenantID key =>
    have e := delete_lookup_isSome s tenantID key ""
    rw [h] at e
    simpa [Store.call] using e
  | exist tenantID key =>
    simp only [Store.call, existsRecv_eq]
    exact h
  | keys tenantID =>
    simp only [Store.call, keysRecv_eq]
    exact h
  | tenantCount => exact h
  | deleteTenant tenantID =>
    simp only [Store.call]
    rw [deleteTenant_tenants]
    by_cases ht : tenantID = ""
    · subst ht
      exact AList.lookup_erase "" s.tenants
    · rw [AList.lookup_erase_ne (Ne.symm ht)]
      exact h

theorem run_keeps_empty_tenant_out (cs : List Call) :
    ∀ s : Store, s.tenants.lookup "" = none → (s.run cs).tenants.lookup "" = none := by
  induction cs with
  | nil => intro s h; exact h
  | cons c cs ih =>
    intro s h
    exact ih (s.call c) (call_keeps_empty_tenant_out s c h)

end EmptyNameFacts

/-- C18: in every namespace state reached from a new tenant store by a sequence
of `Set` and `Delete` calls with arbitrary arguments (empty keys too), the empty
string is not a stored key: `Exists ""` is false, `Get ""` is not found and
`Keys()` does not contain "". -/
theorem C18_no_empty_key (cs : List TenantCall) :
    (NewTenantStore.run cs).Exists "" = false ∧
    (NewTenantStore.run cs).Get "" = ([], false) ∧
    (NewTenantStore.run cs).Keys.contains "" = false := by
  have h := tenantRun_keeps_empty_key_out cs NewTenantStore rfl
  have he : (NewTenantStore.run cs).Exists "" = false := by
    simp [TenantStore.Exists, h]
  refine ⟨he, tenantGet_absent _ "" he, ?_⟩
  rw [Bool.eq_false_iff]
  intro hc
  have hm : "" ∈ (NewTenantStore.run cs).Keys := by simpa using hc
  rw [← tenantExists_iff_mem, he] at hm
  exact Bool.false_ne_true hm

/-- C19: in every registry state reached from a new registry by a sequence of
`Set`, `Get`, `Delete`, `Exists`, `Keys`, `TenantCount` and `DeleteTenant`
calls with arbitrary arguments (empty strings too), no namespace exists for the
empty tenant identifier: `DeleteTenant ""` returns `false`, the empty string is
not among the registered tenants and `TenantCount` is the number of non-empty
registered tenant identifiers. -/
theorem C19_no_empty_tenant (cs : List Call) :
    ((NewStore.run cs).tenants.lookup "").isSome = false ∧
    ((NewStore.run cs).DeleteTenant "").2 = false ∧
    (NewStore.run cs).tenants.keys.contains "" = false ∧
    (NewStore.run cs).TenantCount =
      ((NewStore.run cs).tenants.keys.filter (fun t => decide (t ≠ ""))).length := by
  have h := run_keeps_empty_tenant_out cs NewStore rfl
  have hs : ((NewStore.run cs).tenants.lookup "").isSome = false := by simp [h]
  have hn : "" ∉ (NewStore.run cs).tenants.keys :=
    AList.mem_keys.not.mp (AList.lookup_eq_none.mp h)
  refine ⟨hs, by rw [deleteTenant_absent _ "" hs], by simpa using hn, ?_⟩
  rw [count_eq_keys, List.filter_eq_self.mpr]
  intro t ht
  have : t ≠ "" := fun e => hn (e ▸ ht)
  simpa using this

/-- C20 as stated fails for `Delete`, `Exists` and `Keys`: called with the empty
tenant identifier they return `false`, `false` and an empty sequence, the very
results of a call for the unknown tenant "t1", and nothing that reports a
failure. -/
theorem C20_counterexample :
    ((NewStore.Delete "" "k").2 = false ∧ (NewStore.Delete "t1" "k").2 = false) ∧
    (NewStore.Exists "" "k" = false ∧ NewStore.Exists "t1" "k" = false) ∧
    (NewStore.Keys "" = [] ∧ NewStore.Keys "t1" = []) := by
  decide

/-- C20, amended: with the empty tenant identifier `Store.Set` reports the
failure "tenant ID cannot be empty"; `Store.Delete`, `Store.Exists` and
`Store.Keys` have no error result and return `false`, `false` and an empty
sequence, `Delete` leaving the registry as it was. -/
theorem C20_empty_tenant_results (s : Store) (k : String) (v : Bytes) :
    (s.Set "" k v).2 = some "tenant ID cannot be empty" ∧
    s.Delete "" k = (s, false) ∧
    s.Exists "" k = false ∧
    s.Keys "" = [] := by
  simp [Store.Set, Store.Delete, Store.Exists, Store.Keys]

/-! ## The copies made by `Set` and `Get` -/

section MemFacts

open Mem

theorem mem_read_append_last (A : List Bytes) (v : Bytes) :
    (Heap.mk (A ++ [v])).read A.length = v := by
  simp [Heap.read]

theorem mem_read_append_old (A : List Bytes) (v : Bytes) (a : Addr) (ha : a < A.length) :
    (Heap.mk (A ++ [v])).read a = (Heap.mk A).read a := by
  simp only [Heap.read]
  exact List.getD_append A [v] [] a ha

theorem mem_read_write_ne (h : Heap) (a b : Addr) (x : Bytes) (hab : a ≠ b) :
    (h.write b x).read a = h.read a := by
  simp [Heap.read, Heap.write, List.getD_eq_getElem?_getD, List.getElem?_set_ne hab.symm]

theorem mem_write_length (h : Heap) (b : Addr) (x : Bytes) :
    (h.write b x).arrays.length = h.arrays.length := by
  simp [Heap.write]

theorem mem_make_copy (h : Heap) (a : Addr) (ha : a < h.arrays.length) :
    (h.make (h.read a).length).1.copy (h.make (h.read a).length).2 a =
      ⟨h.arrays ++ [h.read a]⟩ := by
  obtain ⟨A⟩ := h
  simp only [Heap.make, Heap.copy]
  rw [mem_read_append_last, mem_read_append_old A _ a ha, copy_make]
  simp [Heap.write]

theorem mem_tenantSet_spec (ts : Mem.TenantStore) (h : Heap) (k : String) (value : Addr)
    (hk : k ≠ "") (hv : value < h.arrays.length) :
    ts.Set h k value =
      (⟨h.arrays ++ [h.read value]⟩, ⟨ts.data.insert k h.arrays.length⟩, none) := by
  have e := mem_make_copy h value hv
  simp only [Mem.TenantStore.Set, if_neg hk]
  rw [e]
  rfl

theorem mem_tenantGet_spec (ts : Mem.TenantStore) (h : Heap) (k : String) (a : Addr)
    (hl : ts.data.lookup k = some a) (ha : a < h.arrays.length) :
    ts.Get h k = (⟨h.arrays ++ [h.read a]⟩, some h.arrays.length, true) := by
  have e := mem_make_copy h a ha
  simp only [Mem.TenantStore.Get, hl]
  rw [e]
  rfl

theorem mem_getTenantStore_lookup (s : Mem.Store) (t : String) :
    (s.getTenantStore t).1.tenants.lookup t = some (s.getTenantStore t).2 := by
  unfold Mem.Store.getTenantStore
  cases h : s.tenants.lookup t
  · simp [AList.lookup_insert]
  · simp [h]

theorem mem_set_spec (s : Mem.Store) (h : Heap) (t k : String) (value : Addr)
    (ht : t ≠ "") (hk : k ≠ "") (hv : value < h.arrays.length) :
    ∃ (s1 : Mem.Store) (ts1 : Mem.TenantStore),
      s.Set h t k value = (⟨h.arrays ++ [h.read value]⟩, s1, none) ∧
      s1.tenants.lookup t = some ts1 ∧ ts1.data.lookup k = some h.arrays.length := by
  refine ⟨(s.getTenantStore t).1.writeBack t
    ⟨(s.getTenantStore t).2.data.insert k h.arrays.length⟩,
    ⟨(s.getTenantStore t).2.data.insert k h.arrays.length⟩, ?_, ?_, ?_⟩
  · simp only [Mem.Store.Set, if_neg ht]
    rw [mem_tenantSet_spec _ h k value hk hv]
  · simp only [Mem.Store.writeBack]
    rw [lookup_replace_self, mem_getTenantStore_lookup]
    rfl
  · exact AList.lookup_insert _

theorem mem_get_spec (s : Mem.Store) (h : Heap) (t k : String) (ts : Mem.TenantStore)
    (a : Addr) (ht : t ≠ "") (hl : s.tenants.lookup t = some ts)
    (hk : ts.data.lookup k = some a) (ha : a < h.arrays.length) :
    s.Get h t k = (⟨h.arrays ++ [h.read a]⟩, some h.arrays.length, true) := by
  simp only [Mem.Store.Get, if_neg ht, hl]
  exact mem_tenantGet_spec ts h k a hk ha

end MemFacts

/-- C21: values are copied in both directions. From any store and memory, for a
non-empty tenant and key and an allocated caller buffer `value`: after
`Store.Set`, whatever bytes the caller writes over its buffer, `Store.Get`
finds the key and returns a slice holding the bytes that were passed to `Set`;
and whatever bytes the caller then writes over that returned slice, the next
`Store.Get` again returns a slice holding the bytes that were passed to
`Set`. -/
theorem C21_value_isolation (s : Mem.Store) (h : Mem.Heap) (t k : String)
    (value : Mem.Addr) (junk1 junk2 : Bytes)
    (ht : t ≠ "") (hk : k ≠ "") (hv : value < h.arrays.length) :
    Mem.valueIsolation s h t k value junk1 junk2 =
      ((h.read value, true), (h.read value, true)) := by
  obtain ⟨s1, ts1, hset, hl1, hl2⟩ := mem_set_spec s h t k value ht hk hv
  -- the memory after the caller has overwritten its buffer
  have hne : h.arrays.length ≠ value := Nat.ne_of_gt hv
  have len2 : ((Mem.Heap.mk (h.arrays ++ [h.read value])).write value junk1).arrays.length
      = h.arrays.length + 1 := by
    rw [mem_write_length]
    simp
  have rd2 : ((Mem.Heap.mk (h.arrays ++ [h.read value])).write value junk1).read
      h.arrays.length = h.read value := by
    rw [mem_read_write_ne _ _ _ _ hne, mem_read_append_last]
  have hget1 := mem_get_spec s1 ((Mem.Heap.mk (h.arrays ++ [h.read value])).write value junk1)
    t k ts1 h.arrays.length ht hl1 hl2 (by rw [len2]; exact Nat.lt_succ_self _)
  rw [rd2] at hget1
  -- the memory after the caller has overwritten the slice it got
  have hne2 : h.arrays.length ≠
      ((Mem.Heap.mk (h.arrays ++ [h.read value])).write value junk1).arrays.length := by
    rw [len2]
    exact Nat.ne_of_lt (Nat.lt_succ_self _)
  have hget2 := mem_get_spec s1
    ((Mem.Heap.mk (((Mem.Heap.mk (h.arrays ++ [h.read value])).write value junk1).arrays
      ++ [h.read value])).write
      ((Mem.Heap.mk (h.arrays ++ [h.read value])).write value junk1).arrays.length junk2)
    t k ts1 h.arrays.length ht hl1 hl2 (by
      rw [mem_write_length]
      simp only [List.length_append, List.length_singleton]
      rw [len2]
      exact Nat.lt_succ_of_lt (Nat.lt_succ_self _))
  rw [mem_read_write_ne _ _ _ _ hne2, mem_read_append_old _ _ _ (by rw [len2]; exact Nat.lt_succ_self _),
    rd2] at hget2
  simp only [Mem.valueIsolation, hset, hget1, hget2, Mem.Heap.readSlice]
  rw [mem_read_append_last, mem_read_append_last]

/-- Witness of C21: the bytes of "orig" are set, the caller's buffer becomes
"Xrig" and the slice returned by the first `Get` becomes "Yrig". -/
theorem C21_value_isolation_witness :
    Mem.valueIsolation Mem.NewStore ⟨[[111, 114, 105, 103]]⟩ "tenant" "key" 0
        [88, 114, 105, 103] [89, 114, 105, 103] =
      (([111, 114, 105, 103], true), ([111, 114, 105, 103], true)) :=
  C21_value_isolation Mem.NewStore ⟨[[111, 114, 105, 103]]⟩ "tenant" "key" 0
    [88, 114, 105, 103] [89, 114, 105, 103] (by decide) (by decide) (by decide)

/-! ## Frame facts: other keys and other tenants -/

section FrameFacts

theorem tenantSet_lookup_ne (ts : TenantStore) (k : String) (v : Bytes) {k2 : String}
    (h : k2 ≠ k) : (ts.Set k v).1.data.lookup k2 = ts.data.lookup k2 := by
  by_cases hk : k = ""
  · subst hk
    rw [tenantSet_rejected]
  · rw [tenantSet_ok ts k v hk]
    exact AList.lookup_insert_ne h

theorem tenantDelete_lookup_ne (ts : TenantStore) (k : String) {k2 : String}
    (h : k2 ≠ k) : (ts.Delete k).1.data.lookup k2 = ts.data.lookup k2 := by
  cases he : ts.Exists k
  · rw [tenantDelete_absent ts k he]
  · rw [tenantDelete_present ts k he]
    exact AList.lookup_erase_ne h

theorem delete_lookup_ne (s : Store) (t k : String) {t2 : String} (h : t2 ≠ t) :
    (s.Delete t k).1.tenants.lookup t2 = s.tenants.lookup t2 := by
  by_cases ht : t = ""
  · simp [Store.Delete, ht]
  · cases hl : s.tenants.lookup t with
    | none => simp [Store.Delete, ht, hl]
    | some ts =>
      rw [delete_eq s t k ts ht hl]
      simp only [Store.writeBack]
      rw [lookup_replace_ne _ h]

theorem get_as_lookup (s : Store) (t k : String) (ht : t ≠ "") :
    s.Get t k =
      match (s.tenants.lookup t).bind (fun ts => ts.data.lookup k) with
      | none => ([], false)
      | some value => (copy (make value.length) value, true) := by
  simp only [Store.Get, if_neg ht]
  cases s.tenants.lookup t <;> rfl

theorem exists_as_lookup (s : Store) (t k : String) (ht : t ≠ "") :
    s.Exists t k = ((s.tenants.lookup t).bind (fun ts => ts.data.lookup k)).isSome := by
  simp only [Store.Exists, if_neg ht]
  cases s.tenants.lookup t <;> rfl

/-- What `Get` and `Exists` return is decided by the value found under the key
in the tenant store of the tenant. -/
theorem get_exists_congr (s1 s2 : Store) (t k : String)
    (h : (s1.tenants.lookup t).bind (fun ts => ts.data.lookup k) =
      (s2.tenants.lookup t).bind (fun ts => ts.data.lookup k)) :
    s1.Get t k = s2.Get t k ∧ s1.Exists t k = s2.Exists t k := by
  by_cases ht : t = ""
  · simp [Store.Get, Store.Exists, ht]
  · rw [get_as_lookup s1 t k ht, get_as_lookup s2 t k ht, exists_as_lookup s1 t k ht,
      exists_as_lookup s2 t k ht, h]
    exact ⟨rfl, rfl⟩

theorem set_other_key (s : Store) (t k : String) (v : Bytes) {k2 : String} (h : k2 ≠ k) :
    (s.Set t k v).1.Get t k2 = s.Get t k2 ∧ (s.Set t k v).1.Exists t k2 = s.Exists t k2 := by
  by_cases ht : t = ""
  · simp [Store.Set, ht]
  · apply get_exists_congr
    rw [set_lookup_self s t k v ht]
    cases hl : s.tenants.lookup t with
    | none =>
      show (NewTenantStore.Set k v).1.data.lookup k2 = none
      rw [tenantSet_lookup_ne _ k v h]
      rfl
    | some ts =>
      show (ts.Set k v).1.data.lookup k2 = ts.data.lookup k2
      exact tenantSet_lookup_ne ts k v h

theorem delete_other_key (s : Store) (t k : String) {k2 : String} (h : k2 ≠ k) :
    (s.Delete t k).1.Get t k2 = s.Get t k2 ∧
    (s.Delete t k).1.Exists t k2 = s.Exists t k2 := by
  by_cases ht : t = ""
  · simp [Store.Delete, ht]
  · cases hl : s.tenants.lookup t with
    | none => simp [Store.Delete, ht, hl]
    | some ts =>
      apply get_exists_congr
      rw [delete_lookup_self s t k ts ht hl, hl]
      show (ts.Delete k).1.data.lookup k2 = ts.data.lookup k2
      exact tenantDelete_lookup_ne ts k h

theorem set_other_tenant (s : Store) (t k : String) (v : Bytes) {t2 : String} (h : t2 ≠ t)
    (k2 : String) :
    (s.Set t k v).1.Get t2 k2 = s.Get t2 k2 ∧
    (s.Set t k v).1.Exists t2 k2 = s.Exists t2 k2 ∧
    (s.Set t k v).1.Keys t2 = s.Keys t2 := by
  have e := set_lookup_ne s t k v h
  simp only [Store.Get, Store.Exists, Store.Keys, e, and_self]

theorem delete_other_tenant (s : Store) (t k : String) {t2 : String} (h : t2 ≠ t)
    (k2 : String) :
    (s.Delete t k).1.Get t2 k2 = s.Get t2 k2 ∧
    (s.Delete t k).1.Exists t2 k2 = s.Exists t2 k2 ∧
    (s.Delete t k).1.Keys t2 = s.Keys t2 := by
  have e := delete_lookup_ne s t k h
  simp only [Store.Get, Store.Exists, Store.Keys, e, and_self]

theorem get_found_eq_exists (s : Store) (t k : String) :
    (s.Get t k).2 = s.Exists t k := by
  by_cases ht : t = ""
  · simp [Store.Get, Store.Exists, ht]
  · cases hl : s.tenants.lookup t with
    | none => simp [Store.Get, Store.Exists, ht, hl]
    | some ts => simp [Store.Get, Store.Exists, ht, hl, tenantGet_found]

theorem delete_result (s : Store) (t k : String) : (s.Delete t k).2 = s.Exists t k := by
  by_cases ht : t = ""
  · simp [Store.Delete, Store.Exists, ht]
  · cases hl : s.tenants.lookup t with
    | none => simp [Store.Delete, Store.Exists, ht, hl]
    | some ts =>
      rw [delete_eq s t k ts ht hl]
      simp only [Store.Exists, if_neg ht, hl]
      cases he : ts.Exists k
      · rw [tenantDelete_absent ts k he]
      · rw [tenantDelete_present ts k he]

theorem delete_then_exists (s : Store) (t k : String) :
    (s.Delete t k).1.Exists t k = false := by
  by_cases ht : t = ""
  · simp [Store.Exists, ht]
  · cases hl : s.tenants.lookup t with
    | none => simp [Store.Delete, Store.Exists, ht, hl]
    | some ts =>
      simp only [Store.Exists, if_neg ht, delete_lookup_self s t k ts ht hl,
        tenantDelete_exists ts k]

theorem set_ok (s : Store) (t k : String) (v : Bytes) (ht : t ≠ "") (hk : k ≠ "") :
    (s.Set t k v).2 = none ∧ (s.Set t k v).1.Get t k = (v, true) := by
  constructor
  · rw [set_err s t k v ht, tenantSet_ok _ k v hk]
  · unfold Store.Get
    rw [if_neg ht, set_lookup_self s t k v ht, tenantSet_ok _ k v hk]
    simp [TenantStore.Get, AList.lookup_insert, copy_make]

end FrameFacts

/-! ## What the request handlers do -/

section HandlerFacts

theorem server_set_valid (s : KVStoreServer) (req : SetRequest)
    (ht : req.TenantId ≠ "") (hk : req.Key ≠ "") :
    s.Set req = (⟨(s.store.Set req.TenantId req.Key req.Value).1⟩,
      ⟨true, "key set successfully"⟩, none) := by
  have h := (set_ok s.store req.TenantId req.Key req.Value ht hk).1
  simp only [KVStoreServer.Set, if_neg ht, if_neg hk]
  rw [h]

theorem server_set_invalid (s : KVStoreServer) (req : SetRequest)
    (h : req.TenantId = "" ∨ req.Key = "") :
    (s.Set req).1 = s ∧ (s.Set req).2.1.Success = false := by
  by_cases ht : req.TenantId = ""
  · simp [KVStoreServer.Set, ht]
  · have hk : req.Key = "" := h.resolve_left ht
    simp [KVStoreServer.Set, ht, hk]

theorem server_delete_valid (s : KVStoreServer) (req : DeleteRequest)
    (ht : req.TenantId ≠ "") (hk : req.Key ≠ "") :
    s.Delete req = (⟨(s.store.Delete req.TenantId req.Key).1⟩,
      (if s.store.Exists req.TenantId req.Key then ⟨true, "key deleted successfully"⟩
        else ⟨false, "key not found"⟩), none) := by
  have h := delete_result s.store req.TenantId req.Key
  simp only [KVStoreServer.Delete, if_neg ht, if_neg hk]
  rw [← h]
  cases (s.store.Delete req.TenantId req.Key).2 <;> rfl

theorem server_delete_invalid (s : KVStoreServer) (req : DeleteRequest)
    (h : req.TenantId = "" ∨ req.Key = "") :
    (s.Delete req).1 = s ∧ (s.Delete req).2.1.Success = false := by
  by_cases ht : req.TenantId = ""
  · simp [KVStoreServer.Delete, ht]
  · have hk : req.Key = "" := h.resolve_left ht
    simp [KVStoreServer.Delete, ht, hk]

theorem server_get_valid (s : KVStoreServer) (req : GetRequest)
    (ht : req.TenantId ≠ "") (hk : req.Key ≠ "") :
    s.Get req = ((if (s.store.Get req.TenantId req.Key).2
      then ⟨true, (s.store.Get req.TenantId req.Key).1, "key found"⟩
      else ⟨false, [], "key not found"⟩), none) := by
  simp only [KVStoreServer.Get, if_neg ht, if_neg hk]
  cases (s.store.Get req.TenantId req.Key).2 <;> rfl

theorem server_get_absent (s : KVStoreServer) (req : GetRequest)
    (h : s.store.Exists req.TenantId req.Key = false) : (s.Get req).1.Found = false := by
  by_cases ht : req.TenantId = ""
  · simp [KVStoreServer.Get, ht]
  · by_cases hk : req.Key = ""
    · simp [KVStoreServer.Get, ht, hk]
    · rw [server_get_valid s req ht hk, get_found_eq_exists, h]
      rfl

theorem delete_keeps_absent (s : Store) (t k t2 k2 : String)
    (h : s.Exists t k = false) : (s.Delete t2 k2).1.Exists t k = false := by
  by_cases e : t = t2
  · subst e
    by_cases e2 : k = k2
    · subst e2
      exact delete_then_exists s t k
    · rw [(delete_other_key s t k2 e2).2, h]
  · rw [(delete_other_tenant s t2 k2 e k).2.1, h]

theorem handle_keeps_absent (s : KVStoreServer) (r : Request) (t k : String)
    (h : s.store.Exists t k = false) (hr : r.setsKey t k = false) :
    (s.handle r).store.Exists t k = false := by
  cases r with
  | set req =>
    simp only [KVStoreServer.handle]
    by_cases hv : req.TenantId = "" ∨ req.Key = ""
    · rw [(server_set_invalid s req hv).1, h]
    · have ht : req.TenantId ≠ "" := fun e => hv (Or.inl e)
      have hk : req.Key ≠ "" := fun e => hv (Or.inr e)
      rw [server_set_valid s req ht hk]
      simp only
      have hne : ¬ (req.TenantId = t ∧ req.Key = k) := by
        simpa [Request.setsKey] using hr
      by_cases e : t = req.TenantId
      · have e2 : k ≠ req.Key := fun e2 => hne ⟨e.symm, e2.symm⟩
        subst e
        rw [(set_other_key s.store req.TenantId req.Key req.Value e2).2, h]
      · rw [(set_other_tenant s.store req.TenantId req.Key req.Value e k).2.1, h]
  | get req => exact h
  | delete req =>
    simp only [KVStoreServer.handle]
    by_cases hv : req.TenantId = "" ∨ req.Key = ""
    · rw [(server_delete_invalid s req hv).1, h]
    · have ht : req.TenantId ≠ "" := fun e => hv (Or.inl e)
      have hk : req.Key ≠ "" := fun e => hv (Or.inr e)
      rw [server_delete_valid s req ht hk]
      exact delete_keeps_absent s.store t k req.TenantId req.Key h
  | exist req => exact h
  | keys req => exact h

theorem serve_keeps_absent (t k : String) (rs : List Request) :
    ∀ s : KVStoreServer, s.store.Exists t k = false →
      rs.any (fun r => r.setsKey t k) = false → (s.serve rs).store.Exists t k = false := by
  induction rs with
  | nil => intro s h _; exact h
  | cons r rs ih =>
    intro s h hr
    simp only [List.any_cons, Bool.or_eq_false_iff] at hr
    exact ih (s.handle r) (handle_keeps_absent s r t k h hr.1) hr.2

end HandlerFacts

/-- C22: each of the five handlers `KVStoreServer.Set`, `Get`, `Delete`,
`Exists` and `Keys` returns its response together with a nil error, for every
request: empty tenant identifiers, empty keys, unknown tenants and absent keys
included. -/
theorem C22_handlers_return_nil_error (s : KVStoreServer) (rs : SetRequest)
    (rg : GetRequest) (rd : DeleteRequest) (re : ExistsRequest) (rk : KeysRequest) :
    (s.Set rs).2.2 = none ∧ (s.Get rg).2 = none ∧ (s.Delete rd).2.2 = none ∧
    (s.Exists re).2 = none ∧ (s.Keys rk).2 = none := by
  refine ⟨?_, ?_, ?_, ?_, ?_⟩
  · unfold KVStoreServer.Set
    split
    · rfl
    · split
      · rfl
      · generalize s.store.Set rs.TenantId rs.Key rs.Value = r
        obtain ⟨store1, err⟩ := r
        cases err <;> rfl
  · unfold KVStoreServer.Get
    split
    · rfl
    · split
      · rfl
      · generalize s.store.Get rg.TenantId rg.Key = r
        obtain ⟨value, found⟩ := r
        cases found <;> rfl
  · unfold KVStoreServer.Delete
    split
    · rfl
    · split
      · rfl
      · generalize s.store.Delete rd.TenantId rd.Key = r
        obtain ⟨store1, deleted⟩ := r
        cases deleted <;> rfl
  · unfold KVStoreServer.Exists
    split <;> rfl
  · unfold KVStoreServer.Keys
    split <;> rfl

/-- C23: `KVStoreServer.Set` responds `Success = true` exactly when the tenant
identifier and the key of the request are both non-empty, with the message
"key set successfully"; otherwise it responds `Success = false`, with
"tenant ID cannot be empty" when the tenant is empty (checked first) and
"key cannot be empty" when only the key is empty. -/
theorem C23_set_response (s : KVStoreServer) (req : SetRequest) :
    ((s.Set req).2.1.Success = true ↔ (req.TenantId ≠ "" ∧ req.Key ≠ "")) ∧
    (s.Set req).2.1 =
      (if req.TenantId = "" then ⟨false, "tenant ID cannot be empty"⟩
        else if req.Key = "" then ⟨false, "key cannot be empty"⟩
        else ⟨true, "key set successfully"⟩) := by
  by_cases ht : req.TenantId = ""
  · simp [KVStoreServer.Set, ht]
  · by_cases hk : req.Key = ""
    · simp [KVStoreServer.Set, ht, hk]
    · rw [server_set_valid s req ht hk]
      simp [ht, hk]

/-- C24: values pass the request handlers unchanged: after `KVStoreServer.Set`
succeeds for `(tenant, key, v)`, `KVStoreServer.Get` of `(tenant, key)` responds
`Found = true` with a `Value` of the length of `v` and equal to it, for every
byte sequence `v`. It responds `Found = false` for a key that no request
handled so far has set, for a key that is not stored, and for the empty tenant
identifier. -/
theorem C24_binary_safe :
    (∀ (s : KVStoreServer) (tenant key : String) (v : Bytes),
      (s.Set ⟨tenant, key, v⟩).2.1.Success = true →
        ((s.Set ⟨tenant, key, v⟩).1.Get ⟨tenant, key⟩).1.Found = true ∧
        ((s.Set ⟨tenant, key, v⟩).1.Get ⟨tenant, key⟩).1.Value.length = v.length ∧
        ((s.Set ⟨tenant, key, v⟩).1.Get ⟨tenant, key⟩).1.Value = v) ∧
    (∀ (rs : List Request) (tenant key : String),
      rs.any (fun r => r.setsKey tenant key) = false →
        ((NewKVStoreServer.serve rs).Get ⟨tenant, key⟩).1.Found = false) ∧
    (∀ (s : KVStoreServer) (tenant key : String),
      s.store.Exists tenant key = false → (s.Get ⟨tenant, key⟩).1.Found = false) ∧
    (∀ (s : KVStoreServer) (key : String), (s.Get ⟨"", key⟩).1.Found = false) := by
  refine ⟨?_, ?_, ?_, ?_⟩
  · intro s tenant key v hok
    have hv : tenant ≠ "" ∧ key ≠ "" := by
      by_contra hc
      have hi : tenant = "" ∨ key = "" := by
        by_cases ht : tenant = ""
        · exact Or.inl ht
        · exact Or.inr (by_contra fun hk => hc ⟨ht, hk⟩)
      have := (server_set_invalid s ⟨tenant, key, v⟩ hi).2
      rw [this] at hok
      exact Bool.false_ne_true hok
    have hg := (set_ok s.store tenant key v hv.1 hv.2).2
    rw [server_set_valid s ⟨tenant, key, v⟩ hv.1 hv.2,
      server_get_valid _ ⟨tenant, key⟩ hv.1 hv.2]
    simp only [hg, if_true, and_self]
  · intro rs tenant key hrs
    apply server_get_absent
    exact serve_keeps_absent tenant key rs NewKVStoreServer (by
      by_cases ht : tenant = "" <;> simp [NewKVStoreServer, NewStore, Store.Exists, ht]) hrs
  · intro s tenant key h
    exact server_get_absent s ⟨tenant, key⟩ h
  · intro s key
    simp [KVStoreServer.Get]

/-- Witness of C24: the bytes 00 01 02 FF FE are set and read back, and a key
that the requests handled so far did not set is not found. -/
theorem C24_binary_safe_witness :
    (((NewKVStoreServer.Set ⟨"test-tenant", "binary-key", [0, 1, 2, 255, 254]⟩).1.Get
        ⟨"test-tenant", "binary-key"⟩).1.Found = true ∧
      ((NewKVStoreServer.Set ⟨"test-tenant", "binary-key", [0, 1, 2, 255, 254]⟩).1.Get
        ⟨"test-tenant", "binary-key"⟩).1.Value.length = [0, 1, 2, 255, 254].length ∧
      ((NewKVStoreServer.Set ⟨"test-tenant", "binary-key", [0, 1, 2, 255, 254]⟩).1.Get
        ⟨"test-tenant", "binary-key"⟩).1.Value = [0, 1, 2, 255, 254]) ∧
    ((NewKVStoreServer.serve [.set ⟨"test-tenant", "other", [1]⟩,
        .delete ⟨"test-tenant", "other"⟩]).Get ⟨"test-tenant", "binary-key"⟩).1.Found
      = false :=
  ⟨C24_binary_safe.1 NewKVStoreServer "test-tenant" "binary-key" [0, 1, 2, 255, 254]
      (by decide),
    C24_binary_safe.2.1 [.set ⟨"test-tenant", "other", [1]⟩,
      .delete ⟨"test-tenant", "other"⟩] "test-tenant" "binary-key" (by decide)⟩

/-- C25: for a non-empty tenant and key, `KVStoreServer.Delete` responds
`Success = true` with "key deleted successfully" exactly when the key was
stored for that tenant before the call, and `Success = false` with
"key not found" otherwise; after either response a `Get` of that key responds
`Found = false`. With an empty tenant identifier or an empty key it responds
`Success = false` and the server is as before. -/
theorem C25_delete_response (s : KVStoreServer) (req : DeleteRequest) :
    (req.TenantId ≠ "" → req.Key ≠ "" →
      ((s.Delete req).2.1.Success = true ↔ s.store.Exists req.TenantId req.Key = true) ∧
      (s.Delete req).2.1 =
        (if s.store.Exists req.TenantId req.Key then ⟨true, "key deleted successfully"⟩
          else ⟨false, "key not found"⟩)) ∧
    ((s.Delete req).1.Get ⟨req.TenantId, req.Key⟩).1.Found = false ∧
    ((req.TenantId = "" ∨ req.Key = "") →
      (s.Delete req).2.1.Success = false ∧ (s.Delete req).1 = s) := by
  refine ⟨?_, ?_, ?_⟩
  · intro ht hk
    rw [server_delete_valid s req ht hk]
    cases s.store.Exists req.TenantId req.Key <;> simp
  · by_cases ht : req.TenantId = ""
    · simp [KVStoreServer.Get, ht]
    · by_cases hk : req.Key = ""
      · simp [KVStoreServer.Get, ht, hk]
      · apply server_get_absent
        rw [server_delete_valid s req ht hk]
        exact delete_then_exists s.store req.TenantId req.Key
  · intro h
    exact ⟨(server_delete_invalid s req h).2, (server_delete_invalid s req h).1⟩

/-- Witness of C25: a stored key is deleted, and a request with an empty key is
rejected. -/
theorem C25_delete_response_witness :
    (((NewKVStoreServer.Set ⟨"t1", "k", [1]⟩).1.Delete ⟨"t1", "k"⟩).2.1 =
      (if (NewKVStoreServer.Set ⟨"t1", "k", [1]⟩).1.store.Exists "t1" "k"
        then ⟨true, "key deleted successfully"⟩ else ⟨false, "key not found"⟩)) ∧
    (((NewKVStoreServer.Set ⟨"t1", "k", [1]⟩).1.Delete ⟨"t1", ""⟩).2.1.Success = false ∧
      ((NewKVStoreServer.Set ⟨"t1", "k", [1]⟩).1.Delete ⟨"t1", ""⟩).1 =
        (NewKVStoreServer.Set ⟨"t1", "k", [1]⟩).1) :=
  ⟨((C25_delete_response (NewKVStoreServer.Set ⟨"t1", "k", [1]⟩).1 ⟨"t1", "k"⟩).1
      (by decide) (by decide)).2,
    (C25_delete_response (NewKVStoreServer.Set ⟨"t1", "k", [1]⟩).1 ⟨"t1", ""⟩).2.2
      (Or.inr rfl)⟩

/-- C26: for tenant identifiers `T1 ≠ T2` and every key `K`, `Delete T1 K`
leaves `Get T2 k2`, `Exists T2 k2` and `Keys T2` unchanged for every key `k2`,
in the store and through the `Delete` handler of the server; in particular a
key stored under the same name in both tenants still exists in `T2` after it
is deleted from `T1`. -/
theorem C26_delete_isolation (s : Store) (T1 T2 K : String) (h : T1 ≠ T2) :
    (∀ k2, (s.Delete T1 K).1.Get T2 k2 = s.Get T2 k2 ∧
      (s.Delete T1 K).1.Exists T2 k2 = s.Exists T2 k2) ∧
    (s.Delete T1 K).1.Keys T2 = s.Keys T2 ∧
    (∀ k2, ((KVStoreServer.mk s).Delete ⟨T1, K⟩).1.store.Get T2 k2 = s.Get T2 k2 ∧
      ((KVStoreServer.mk s).Delete ⟨T1, K⟩).1.store.Exists T2 k2 = s.Exists T2 k2) ∧
    ((KVStoreServer.mk s).Delete ⟨T1, K⟩).1.store.Keys T2 = s.Keys T2 ∧
    (s.Exists T1 K = true → s.Exists T2 K = true →
      (s.Delete T1 K).2 = true ∧ (s.Delete T1 K).1.Exists T2 K = true) := by
  have d := delete_other_tenant s T1 K (Ne.symm h)
  have hs : ((KVStoreServer.mk s).Delete ⟨T1, K⟩).1.store = s ∨
      ((KVStoreServer.mk s).Delete ⟨T1, K⟩).1.store = (s.Delete T1 K).1 := by
    by_cases hv : T1 = "" ∨ K = ""
    · exact Or.inl (by rw [(server_delete_invalid ⟨s⟩ ⟨T1, K⟩ hv).1])
    · have ht : T1 ≠ "" := fun e => hv (Or.inl e)
      have hk : K ≠ "" := fun e => hv (Or.inr e)
      exact Or.inr (by rw [server_delete_valid ⟨s⟩ ⟨T1, K⟩ ht hk])
  refine ⟨fun k2 => ⟨(d k2).1, (d k2).2.1⟩, (d K).2.2, ?_, ?_, ?_⟩
  · intro k2
    rcases hs with e | e <;> rw [e]
    · exact ⟨rfl, rfl⟩
    · exact ⟨(d k2).1, (d k2).2.1⟩
  · rcases hs with e | e <;> rw [e]
    exact (d K).2.2
  · intro h1 h2
    rw [delete_result, (d K).2.1]
    exact ⟨h1, h2⟩

/-- Witness of C26: "shared-key" is stored in "tenant1" and "tenant2" and is
deleted from "tenant1". -/
theorem C26_delete_isolation_witness :
    ((NewStore.run [.set "tenant1" "shared-key" [1], .set "tenant2" "shared-key" [2]]).Delete
        "tenant1" "shared-key").2 = true ∧
    ((NewStore.run [.set "tenant1" "shared-key" [1], .set "tenant2" "shared-key" [2]]).Delete
        "tenant1" "shared-key").1.Exists "tenant2" "shared-key" = true :=
  (C26_delete_isolation
    (NewStore.run [.set "tenant1" "shared-key" [1], .set "tenant2" "shared-key" [2]])
    "tenant1" "tenant2" "shared-key" (by decide)).2.2.2.2 (by decide) (by decide)

/-- C29: a `KVStoreServer.Set`, `Get` or `Delete` request with an empty tenant
identifier or an empty key is rejected by the handler and leaves the server and
its store unchanged; in particular such a `Set` request creates no namespace:
`TenantCount` of the store is unchanged. -/
theorem C29_invalid_request_leaves_store (s : KVStoreServer) (tenant key : String)
    (v : Bytes) (h : tenant = "" ∨ key = "") :
    (s.Set ⟨tenant, key, v⟩).1 = s ∧
    s.handle (.get ⟨tenant, key⟩) = s ∧
    (s.Delete ⟨tenant, key⟩).1 = s ∧
    (s.Set ⟨tenant, key, v⟩).1.store.TenantCount = s.store.TenantCount ∧
    (s.Set ⟨tenant, key, v⟩).2.1.Success = false ∧
    (s.Get ⟨tenant, key⟩).1.Found = false ∧
    (s.Delete ⟨tenant, key⟩).2.1.Success = false := by
  have h1 := server_set_invalid s ⟨tenant, key, v⟩ h
  have h2 := server_delete_invalid s ⟨tenant, key⟩ h
  refine ⟨h1.1, rfl, h2.1, by rw [h1.1], h1.2, ?_, h2.2⟩
  by_cases ht : tenant = ""
  · simp [KVStoreServer.Get, ht]
  · have hk : key = "" := h.resolve_left ht
    simp [KVStoreServer.Get, ht, hk]

/-- Witness of C29: a `Set` request for the unknown tenant "tenant" with an
empty key, sent to a new server. -/
theorem C29_invalid_request_leaves_store_witness :
    (NewKVStoreServer.Set ⟨"tenant", "", [118]⟩).1.store.TenantCount =
      NewKVStoreServer.store.TenantCount :=
  (C29_invalid_request_leaves_store NewKVStoreServer "tenant" "" [118] (Or.inr rfl)).2.2.2.1

/-- C30: `Exists` agrees with `Get`: for every registry state, tenant `t` and
key `k`, `Store.Exists t k` is the found flag returned by `Store.Get t k`, and
`TenantStore.Exists k` is the found flag of `TenantStore.Get k`. -/
theorem C30_exists_agrees_with_get :
    (∀ (s : Store) (t k : String), s.Exists t k = (s.Get t k).2) ∧
    (∀ (ts : TenantStore) (k : String), ts.Exists k = (ts.Get k).2) :=
  ⟨fun s t k => (get_found_eq_exists s t k).symm, fun ts k => (tenantGet_found ts k).symm⟩

/-- C31: mutations touch one key only: for every registry state, tenant `t` and
keys `k ≠ k2`, neither `Store.Set t k v` nor `Store.Delete t k` changes the
result of `Store.Get t k2` or of `Store.Exists t k2`. -/
theorem C31_other_keys_untouched (s : Store) (t k k2 : String) (v : Bytes) (h : k ≠ k2) :
    ((s.Set t k v).1.Get t k2 = s.Get t k2 ∧
      (s.Set t k v).1.Exists t k2 = s.Exists t k2) ∧
    ((s.Delete t k).1.Get t k2 = s.Get t k2 ∧
      (s.Delete t k).1.Exists t k2 = s.Exists t k2) :=
  ⟨set_other_key s t k v (Ne.symm h), delete_other_key s t k (Ne.symm h)⟩

/-- Witness of C31: tenant "t1" holds "a" and "b"; "a" is overwritten, and
deleted. -/
theorem C31_other_keys_untouched_witness :
    (((NewStore.run [.set "t1" "a" [1], .set "t1" "b" [2]]).Set "t1" "a" [3]).1.Get "t1" "b" =
        (NewStore.run [.set "t1" "a" [1], .set "t1" "b" [2]]).Get "t1" "b" ∧
      ((NewStore.run [.set "t1" "a" [1], .set "t1" "b" [2]]).Set "t1" "a" [3]).1.Exists
          "t1" "b" =
        (NewStore.run [.set "t1" "a" [1], .set "t1" "b" [2]]).Exists "t1" "b") ∧
    (((NewStore.run [.set "t1" "a" [1], .set "t1" "b" [2]]).Delete "t1" "a").1.Get "t1" "b" =
        (NewStore.run [.set "t1" "a" [1], .set "t1" "b" [2]]).Get "t1" "b" ∧
      ((NewStore.run [.set "t1" "a" [1], .set "t1" "b" [2]]).Delete "t1" "a").1.Exists
          "t1" "b" =
        (NewStore.run [.set "t1" "a" [1], .set "t1" "b" [2]]).Exists "t1" "b") :=
  C31_other_keys_untouched (NewStore.run [.set "t1" "a" [1], .set "t1" "b" [2]])
    "t1" "a" "b" [3] (by decide)

section DeleteTenantFrame

theorem deleteTenant_lookup_ne (s : Store) (t : String) {t2 : String} (h : t2 ≠ t) :
    (s.DeleteTenant t).1.tenants.lookup t2 = s.tenants.lookup t2 := by
  rw [deleteTenant_tenants]
  exact AList.lookup_erase_ne h

theorem keys_mem_iff_exists (s : Store) (t k : String) :
    k ∈ s.Keys t ↔ s.Exists t k = true := by
  by_cases ht : t = ""
  · simp [Store.Keys, Store.Exists, ht]
  · cases hl : s.tenants.lookup t with
    | none => simp [Store.Keys, Store.Exists, ht, hl]
    | some ts =>
      simp only [Store.Keys, Store.Exists, if_neg ht, hl]
      exact (tenantExists_iff_mem ts k).symm

end DeleteTenantFrame

/-- C32: `Store.DeleteTenant t` affects tenant `t` only: for every registry
state and every tenant `t2 ≠ t`, the results of `Get t2 k` and `Exists t2 k`,
for every key `k`, and of `Keys t2` are the same after `DeleteTenant t` as
before. -/
theorem C32_delete_tenant_isolation (s : Store) (t t2 : String) (h : t2 ≠ t) :
    (∀ k, (s.DeleteTenant t).1.Get t2 k = s.Get t2 k ∧
      (s.DeleteTenant t).1.Exists t2 k = s.Exists t2 k) ∧
    (s.DeleteTenant t).1.Keys t2 = s.Keys t2 := by
  have e := deleteTenant_lookup_ne s t h
  simp only [Store.Get, Store.Exists, Store.Keys, e, and_self, implies_true]

/-- Witness of C32: "tenant1" is deleted next to "tenant2". -/
theorem C32_delete_tenant_isolation_witness :
    (∀ k, ((NewStore.run [.set "tenant1" "key1" [1], .set "tenant2" "key1" [2]]).DeleteTenant
          "tenant1").1.Get "tenant2" k =
        (NewStore.run [.set "tenant1" "key1" [1], .set "tenant2" "key1" [2]]).Get "tenant2" k ∧
      ((NewStore.run [.set "tenant1" "key1" [1], .set "tenant2" "key1" [2]]).DeleteTenant
          "tenant1").1.Exists "tenant2" k =
        (NewStore.run [.set "tenant1" "key1" [1], .set "tenant2" "key1" [2]]).Exists
          "tenant2" k) ∧
    ((NewStore.run [.set "tenant1" "key1" [1], .set "tenant2" "key1" [2]]).DeleteTenant
        "tenant1").1.Keys "tenant2" =
      (NewStore.run [.set "tenant1" "key1" [1], .set "tenant2" "key1" [2]]).Keys "tenant2" :=
  C32_delete_tenant_isolation
    (NewStore.run [.set "tenant1" "key1" [1], .set "tenant2" "key1" [2]])
    "tenant1" "tenant2" (by decide)

/-- C33: an empty value is a stored value: for every non-empty tenant `t` and
non-empty key `k`, after `Store.Set t k v` with `v` of length 0 (a nil or an
empty slice), `Store.Exists t k` is true, `Store.Get t k` returns found = true
with a value of length 0, and `k` is listed by `Store.Keys t`. -/
theorem C33_empty_value_is_stored (s : Store) (t k : String) (v : Bytes)
    (ht : t ≠ "") (hk : k ≠ "") (hv : v.length = 0) :
    (s.Set t k v).1.Exists t k = true ∧
    ((s.Set t k v).1.Get t k).2 = true ∧
    ((s.Set t k v).1.Get t k).1.length = 0 ∧
    k ∈ (s.Set t k v).1.Keys t := by
  have hg := (set_ok s t k v ht hk).2
  have he : (s.Set t k v).1.Exists t k = true := by
    rw [← get_found_eq_exists, hg]
  refine ⟨he, by rw [hg], by rw [hg]; exact hv, ?_⟩
  exact (keys_mem_iff_exists _ t k).mpr he

/-- Witness of C33: the empty value under "k" of tenant "t1", in a new
registry. -/
theorem C33_empty_value_is_stored_witness :
    (NewStore.Set "t1" "k" []).1.Exists "t1" "k" = true ∧
    ((NewStore.Set "t1" "k" []).1.Get "t1" "k").2 = true ∧
    ((NewStore.Set "t1" "k" []).1.Get "t1" "k").1.length = 0 ∧
    "k" ∈ (NewStore.Set "t1" "k" []).1.Keys "t1" :=
  C33_empty_value_is_stored NewStore "t1" "k" [] (by decide) (by decide) rfl

/-! ## Concurrent writers: the invariant -/

section ConcFacts

open Conc

theorem forall2_update {α β : Type} {R : α → β → Prop} {l1 : List α} {l2 : List β}
    (h : List.Forall₂ R l1 l2) :
    ∀ (i : Nat) (b : β), l2[i]? = some b →
      ∃ a, a ∈ l1 ∧ R a b ∧
        ∀ (R2 : α → β → Prop), (∀ x y, R x y → R2 x y) →
          ∀ b2, R2 a b2 → List.Forall₂ R2 l1 (l2.set i b2) := by
  induction h with
  | nil => intro i b hb; simp at hb
  | @cons a0 b0 l1 l2 hab hrest ih =>
    intro i b hb
    cases i with
    | zero =>
      simp only [List.getElem?_cons_zero, Option.some.injEq] at hb
      subst hb
      refine ⟨a0, List.mem_cons_self _ _, hab, fun R2 himp b2 hb2 => ?_⟩
      exact List.Forall₂.cons hb2 (hrest.imp himp)
    | succ j =>
      simp only [List.getElem?_cons_succ] at hb
      obtain ⟨a, ha, hR, hup⟩ := ih j b hb
      refine ⟨a, List.mem_cons_of_mem _ ha, hR, fun R2 himp b2 hb2 => ?_⟩
      exact List.Forall₂.cons (himp _ _ hab) (hup R2 himp b2 hb2)

theorem forall2_of_mem {α β : Type} {R : α → β → Prop} {l1 : List α} {l2 : List β}
    (h : List.Forall₂ R l1 l2) : ∀ a, a ∈ l1 → ∃ b, b ∈ l2 ∧ R a b := by
  induction h with
  | nil => intro a ha; simp at ha
  | @cons a0 b0 l1 l2 hab _ ih =>
    intro a ha
    rcases List.mem_cons.mp ha with e | e
    · subst e
      exact ⟨b0, List.mem_cons_self _ _, hab⟩
    · obtain ⟨b, hb, hR⟩ := ih a e
      exact ⟨b, List.mem_cons_of_mem _ hb, hR⟩

theorem conc_inv_init (sh0 : Shared) (t : String) (kvs : List (String × Bytes)) :
    Inv sh0 t kvs ⟨sh0, writers t kvs⟩ := by
  refine Or.inl ⟨rfl, ?_⟩
  show List.Forall₂ (Before t) kvs (writers t kvs)
  induction kvs with
  | nil => exact List.Forall₂.nil
  | cons kv kvs ih => exact List.Forall₂.cons (Or.inl rfl) ih

theorem conc_after_mono (t : String) (a : Nat) (ns : TenantStore) (k : String) (v : Bytes)
    (kv : String × Bytes) (wr : Writer) (h : After t a ns kv wr) :
    After t a (ns.Set k v).1 kv wr := by
  rcases h with h | h | h | ⟨err, he, hs⟩
  · exact Or.inl h
  · exact Or.inr (Or.inl h)
  · exact Or.inr (Or.inr (Or.inl h))
  · refine Or.inr (Or.inr (Or.inr ⟨err, he, fun hne => ?_⟩))
    by_cases e : kv.1 = k
    · have hk : k ≠ "" := e ▸ hne
      rw [tenantSet_ok ns k v hk, e]
      simp [AList.lookup_insert]
    · rw [tenantSet_lookup_ne ns k v e]
      exact hs hne

theorem conc_step_inv (sh0 : Shared) (t : String) (kvs : List (String × Bytes))
    (ht : t ≠ "") (h0 : sh0.tenants.lookup t = none) (w : World) (i : Nat)
    (h : Inv sh0 t kvs w) : Inv sh0 t kvs (w.step i) := by
  unfold World.step
  cases hw : w.writers[i]? with
  | none => exact h
  | some wr =>
    simp only
    rcases h with ⟨hsh, hf⟩ | ⟨ns, hsh, hprov, hf⟩
    · obtain ⟨kv, _, hR, hup⟩ := forall2_update hf i wr hw
      rcases hR with e | e
      · subst e
        refine Or.inl ⟨?_, ?_⟩
        · simp [Writer.step, ht, hsh, h0]
        · simpa [Writer.step, ht, hsh, h0] using
            hup (Before t) (fun _ _ hxy => hxy) (.create t kv.1 kv.2) (Or.inr rfl)
      · subst e
        refine Or.inr ⟨NewTenantStore, ?_, ?_, ?_⟩
        · simp [Writer.step, hsh, h0]
        · intro k v hkv
          simp [NewTenantStore] at hkv
        · simpa [Writer.step, hsh, h0] using
            hup (After t sh0.objects.length NewTenantStore)
              (fun _ _ hxy => hxy.elim Or.inl (fun hc => Or.inr (Or.inl hc)))
              (.store sh0.objects.length kv.1 kv.2) (Or.inr (Or.inr (Or.inl rfl)))
    · have hl : w.shared.tenants.lookup t = some sh0.objects.length := by
        rw [hsh]
        exact AList.lookup_insert _
      obtain ⟨kv, hmem, hR, hup⟩ := forall2_update hf i wr hw
      rcases hR with e | e | e | ⟨err, e, hs⟩
      · subst e
        refine Or.inr ⟨ns, ?_, hprov, ?_⟩
        · simp [Writer.step, ht, hl, hsh]
        · simpa [Writer.step, ht, hl] using
            hup _ (fun _ _ hxy => hxy) (.store sh0.objects.length kv.1 kv.2)
              (Or.inr (Or.inr (Or.inl rfl)))
      · subst e
        refine Or.inr ⟨ns, ?_, hprov, ?_⟩
        · simp [Writer.step, hl, hsh]
        · simpa [Writer.step, hl] using
            hup _ (fun _ _ hxy => hxy) (.store sh0.objects.length kv.1 kv.2)
              (Or.inr (Or.inr (Or.inl rfl)))
      · subst e
        have hd : (Shared.mk (sh0.tenants.insert t sh0.objects.length)
            (sh0.objects ++ [ns])).deref sh0.objects.length = ns := by
          simp [Shared.deref]
        refine Or.inr ⟨(ns.Set kv.1 kv.2).1, ?_, ?_, ?_⟩
        · simp [Writer.step, hsh, hd]
        · intro k v hkv
          by_cases hk : kv.1 = ""
          · rw [hk, tenantSet_rejected] at hkv
            exact hprov k v hkv
          · by_cases e : k = kv.1
            · subst e
              rw [tenantSet_ok ns _ kv.2 hk] at hkv
              simp only [AList.lookup_insert, Option.some.injEq] at hkv
              subst hkv
              exact hmem
            · rw [tenantSet_lookup_ne ns kv.1 kv.2 e] at hkv
              exact hprov k v hkv
        · have hnew : After t sh0.objects.length (ns.Set kv.1 kv.2).1 kv
              (.done (ns.Set kv.1 kv.2).2) := by
            refine Or.inr (Or.inr (Or.inr ⟨_, rfl, fun hne => ?_⟩))
            rw [tenantSet_ok ns kv.1 kv.2 hne]
            simp [AList.lookup_insert]
          simpa [Writer.step, hsh, hd] using
            hup _ (fun x y hxy => conc_after_mono t _ ns kv.1 kv.2 x y hxy) _ hnew
      · subst e
        refine Or.inr ⟨ns, ?_, hprov, ?_⟩
        · simp [Writer.step, hsh]
        · simpa [Writer.step] using
            hup _ (fun _ _ hxy => hxy) (.done err) (Or.inr (Or.inr (Or.inr ⟨err, rfl, hs⟩)))

theorem conc_run_inv (sh0 : Shared) (t : String) (kvs : List (String × Bytes))
    (ht : t ≠ "") (h0 : sh0.tenants.lookup t = none) (schedule : List Nat) :
    ∀ w : World, Inv sh0 t kvs w → Inv sh0 t kvs (w.run schedule) := by
  induction schedule with
  | nil => intro w h; exact h
  | cons i schedule ih =>
    intro w h
    exact ih (w.step i) (conc_step_inv sh0 t kvs ht h0 w i h)

theorem conc_race_inv (sh0 : Shared) (t : String) (kvs : List (String × Bytes))
    (ht : t ≠ "") (h0 : sh0.tenants.lookup t = none) (schedule : List Nat) :
    Inv sh0 t kvs (race sh0 t kvs schedule) :=
  conc_run_inv sh0 t kvs ht h0 schedule _ (conc_inv_init sh0 t kvs)

theorem conc_count_insert (sh0 : Shared) (t : String) (ns : TenantStore)
    (h0 : sh0.tenants.lookup t = none) :
    (Shared.mk (sh0.tenants.insert t sh0.objects.length) (sh0.objects ++ [ns])).TenantCount
      = sh0.TenantCount + 1 := by
  have e := keys_insert_absent sh0.objects.length h0
  have e2 := congrArg List.length e
  simpa [Shared.TenantCount, AList.keys, List.keys] using e2

theorem conc_get_created (sh0 : Shared) (t k : String) (ns : TenantStore) (v : Bytes)
    (ht : t ≠ "") (hk : ns.data.lookup k = some v) :
    (Shared.mk (sh0.tenants.insert t sh0.objects.length) (sh0.objects ++ [ns])).Get t k
      = (v, true) := by
  simp [Shared.Get, ht, AList.lookup_insert, Shared.deref, TenantStore.Get, hk, copy_make]

end ConcFacts

/-! ## Concurrent writers: every goroutine can return -/

section ConcProgress

open Conc

theorem conc_done_of_isDone (wr : Writer) (h : wr.isDone = true) :
    ∃ err, wr = .done err := by
  cases wr with
  | done err => exact ⟨err, rfl⟩
  | start t k v => simp [Writer.isDone] at h
  | create t k v => simp [Writer.isDone] at h
  | store p k v => simp [Writer.isDone] at h

theorem conc_three_steps (sh : Shared) (wr : Writer) :
    ∃ err, (((wr.step sh).2.step (wr.step sh).1).2.step
      ((wr.step sh).2.step (wr.step sh).1).1).2 = .done err := by
  apply conc_done_of_isDone
  cases wr with
  | start t k v =>
    by_cases ht : t = ""
    · simp [Writer.step, Writer.isDone, ht]
    · cases hl : sh.tenants.lookup t <;> simp [Writer.step, Writer.isDone, ht, hl]
  | create t k v =>
    cases hl : sh.tenants.lookup t <;> simp [Writer.step, Writer.isDone, hl]
  | store p k v => simp [Writer.step, Writer.isDone]
  | done err => simp [Writer.step, Writer.isDone]

theorem conc_step_at (w : World) (i : Nat) (wr : Writer) (h : w.writers[i]? = some wr) :
    (w.step i).shared = (wr.step w.shared).1 ∧
    (w.step i).writers[i]? = some (wr.step w.shared).2 := by
  have hi : i < w.writers.length := (List.getElem?_eq_some_iff.mp h).1
  simp [World.step, h, hi]

theorem conc_step_done (w : World) (i j : Nat) (err : Option String)
    (h : w.writers[j]? = some (.done err)) : (w.step i).writers[j]? = some (.done err) := by
  unfold World.step
  cases hw : w.writers[i]? with
  | none => exact h
  | some wr =>
    simp only
    by_cases e : i = j
    · subst e
      rw [hw] at h
      cases h
      have hi : i < w.writers.length := (List.getElem?_eq_some_iff.mp hw).1
      simp [Writer.step, hi]
    · rw [List.getElem?_set_ne e]
      exact h

theorem conc_step_length (w : World) (i : Nat) :
    (w.step i).writers.length = w.writers.length := by
  unfold World.step
  cases hw : w.writers[i]? <;> simp

theorem conc_run_done (schedule : List Nat) :
    ∀ (w : World) (j : Nat) (err : Option String), w.writers[j]? = some (.done err) →
      (w.run schedule).writers[j]? = some (.done err) := by
  induction schedule with
  | nil => intro w j err h; exact h
  | cons i schedule ih =>
    intro w j err h
    exact ih (w.step i) j err (conc_step_done w i j err h)

theorem conc_run_length (schedule : List Nat) :
    ∀ w : World, (w.run schedule).writers.length = w.writers.length := by
  induction schedule with
  | nil => intro w; rfl
  | cons i schedule ih =>
    intro w
    exact (ih (w.step i)).trans (conc_step_length w i)

theorem conc_run_append (s1 s2 : List Nat) :
    ∀ w : World, w.run (s1 ++ s2) = (w.run s1).run s2 := by
  induction s1 with
  | nil => intro w; rfl
  | cons i s1 ih => intro w; exact ih (w.step i)

theorem conc_thrice (w : World) (i : Nat) (hi : i < w.writers.length) :
    ∃ err, (w.run [i, i, i]).writers[i]? = some (.done err) := by
  obtain ⟨wr, hwr⟩ : ∃ wr, w.writers[i]? = some wr :=
    ⟨w.writers[i], List.getElem?_eq_getElem hi⟩
  obtain ⟨h1s, h1w⟩ := conc_step_at w i wr hwr
  obtain ⟨h2s, h2w⟩ := conc_step_at (w.step i) i _ h1w
  obtain ⟨_, h3w⟩ := conc_step_at ((w.step i).step i) i _ h2w
  obtain ⟨err, he⟩ := conc_three_steps w.shared wr
  refine ⟨err, ?_⟩
  show (((w.step i).step i).step i).writers[i]? = _
  rw [h3w, h2s, h1s, he]

theorem conc_all_return (n : Nat) :
    ∀ w : World, n ≤ w.writers.length →
      ∀ j, j < n → ∃ err,
        (w.run ((List.range n).flatMap (fun i => [i, i, i]))).writers[j]?
          = some (.done err) := by
  induction n with
  | zero => intro w _ j hj; exact absurd hj (Nat.not_lt_zero _)
  | succ n ih =>
    intro w hn j hj
    rw [List.range_succ, List.flatMap_append, conc_run_append]
    simp only [List.flatMap_cons, List.flatMap_nil, List.append_nil]
    rcases Nat.lt_succ_iff_lt_or_eq.mp hj with hlt | heq
    · obtain ⟨err, he⟩ := ih w (Nat.le_of_succ_le hn) j hlt
      exact ⟨err, conc_run_done _ _ j err he⟩
    · subst heq
      apply conc_thrice
      rw [conc_run_length]
      exact hn

theorem conc_complete_schedule (sh0 : Shared) (t : String) (kvs : List (String × Bytes)) :
    (race sh0 t kvs ((List.range kvs.length).flatMap (fun i => [i, i, i]))).writers.all
      Writer.isDone = true := by
  rw [List.all_eq_true]
  intro wr hwr
  obtain ⟨j, hj⟩ := List.getElem?_of_mem hwr
  have hlen : (race sh0 t kvs
      ((List.range kvs.length).flatMap (fun i => [i, i, i]))).writers.length = kvs.length := by
    unfold race
    rw [conc_run_length]
    simp [writers]
  have hjl : j < kvs.length := by
    rw [← hlen]
    exact (List.getElem?_eq_some_iff.mp hj).1
  obtain ⟨err, he⟩ := conc_all_return kvs.length ⟨sh0, writers t kvs⟩
    (by simp [writers]) j hjl
  unfold race at hj
  rw [he] at hj
  cases hj
  rfl

end ConcProgress

/-- The facts of C27 about one schedule. -/
theorem conc_race_safe (sh0 : Conc.Shared) (t : String)
    (kvs : List (String × Bytes)) (schedule : List Nat)
    (ht : t ≠ "") (h0 : sh0.tenants.lookup t = none) :
    ((Conc.race sh0 t kvs schedule).shared.TenantCount ≤ sh0.TenantCount + 1 ∧
      (Conc.race sh0 t kvs schedule).shared.objects.length ≤ sh0.objects.length + 1) ∧
    (∀ p k v, Conc.Writer.store p k v ∈ (Conc.race sh0 t kvs schedule).writers →
      (Conc.race sh0 t kvs schedule).shared.tenants.lookup t = some p) ∧
    (kvs ≠ [] → (Conc.race sh0 t kvs schedule).writers.all Conc.Writer.isDone = true →
      (Conc.race sh0 t kvs schedule).shared.TenantCount = sh0.TenantCount + 1 ∧
      (Conc.race sh0 t kvs schedule).shared.objects.length = sh0.objects.length + 1 ∧
      (∀ kv, kv ∈ kvs → kv.1 ≠ "" →
        ∃ v, (Conc.race sh0 t kvs schedule).shared.Get t kv.1 = (v, true) ∧
          (kv.1, v) ∈ kvs) ∧
      ((kvs.map Prod.fst).Nodup → ∀ kv, kv ∈ kvs → kv.1 ≠ "" →
        (Conc.race sh0 t kvs schedule).shared.Get t kv.1 = (kv.2, true))) := by
  have hinv := conc_race_inv sh0 t kvs ht h0 schedule
  generalize Conc.race sh0 t kvs schedule = w at hinv
  rcases hinv with ⟨hsh, hf⟩ | ⟨ns, hsh, hprov, hf⟩
  · refine ⟨by rw [hsh]; exact ⟨Nat.le_succ _, Nat.le_succ _⟩, ?_, ?_⟩
    · intro p k v hmem
      obtain ⟨i, hi⟩ := List.getElem?_of_mem hmem
      obtain ⟨kv, _, hR, _⟩ := forall2_update hf i _ hi
      rcases hR with e | e <;> cases e
    · intro hne hall
      exfalso
      obtain ⟨kv, hkv⟩ := List.exists_mem_of_ne_nil kvs hne
      obtain ⟨wr, hwr, hR⟩ := forall2_of_mem hf kv hkv
      have hd := List.all_eq_true.mp hall wr hwr
      rcases hR with e | e <;> subst e <;> simp [Conc.Writer.isDone] at hd
  · have hcount := conc_count_insert sh0 t ns h0
    have hlen : (sh0.objects ++ [ns]).length = sh0.objects.length + 1 := by simp
    have hgets : ∀ kv, kv ∈ kvs → kv.1 ≠ "" →
        w.writers.all Conc.Writer.isDone = true →
        ∃ v, w.shared.Get t kv.1 = (v, true) ∧ (kv.1, v) ∈ kvs := by
      intro kv hkv hk hall
      obtain ⟨wr, hwr, hR⟩ := forall2_of_mem hf kv hkv
      have hd := List.all_eq_true.mp hall wr hwr
      rcases hR with e | e | e | ⟨err, _, hs⟩
      · subst e; simp [Conc.Writer.isDone] at hd
      · subst e; simp [Conc.Writer.isDone] at hd
      · subst e; simp [Conc.Writer.isDone] at hd
      · obtain ⟨v, hv⟩ := Option.isSome_iff_exists.mp (hs hk)
        refine ⟨v, ?_, hprov _ _ hv⟩
        rw [hsh]
        exact conc_get_created sh0 t kv.1 ns v ht hv
    refine ⟨by rw [hsh, hcount]; exact ⟨Nat.le_refl _, Nat.le_of_eq hlen⟩, ?_, ?_⟩
    · intro p k v hmem
      obtain ⟨i, hi⟩ := List.getElem?_of_mem hmem
      obtain ⟨kv, _, hR, _⟩ := forall2_update hf i _ hi
      rw [hsh]
      rcases hR with e | e | e | ⟨err, e, _⟩ <;> cases e
      exact AList.lookup_insert _
    · intro _ hall
      refine ⟨by rw [hsh, hcount], by rw [hsh]; exact hlen,
        fun kv hkv hk => hgets kv hkv hk hall, ?_⟩
      intro hnd kv hkv hk
      obtain ⟨v, hg, hmem⟩ := hgets kv hkv hk hall
      have e := List.inj_on_of_nodup_map hnd hmem hkv rfl
      rw [hg, ← e]

/-- C27: concurrent creation of the same new tenant is race-free. Goroutines,
one for each pair of a key and a value, run `Store.Set` on the tenant `t`, which
is not empty and has no tenant store in the registry `sh0`, in any interleaving
of their lock-protected sections. At every moment at most one tenant store has
been created and registered, and every goroutine that holds a tenant store holds
the one registered for `t`. When all have returned, exactly one tenant store has
been created (`TenantCount` is one more than before, not more), and no write is
lost: every non-empty key that was written is found in `t`, with a value that
some goroutine wrote under that key, which is the value of its own goroutine
when the keys are distinct. There is a schedule on which all return: each
goroutine in turn takes three steps. -/
theorem C27_concurrent_tenant_creation (sh0 : Conc.Shared) (t : String)
    (kvs : List (String × Bytes)) (schedule : List Nat)
    (ht : t ≠ "") (h0 : sh0.tenants.lookup t = none) :
    ((Conc.race sh0 t kvs schedule).shared.TenantCount ≤ sh0.TenantCount + 1 ∧
      (Conc.race sh0 t kvs schedule).shared.objects.length ≤ sh0.objects.length + 1) ∧
    (∀ p k v, Conc.Writer.store p k v ∈ (Conc.race sh0 t kvs schedule).writers →
      (Conc.race sh0 t kvs schedule).shared.tenants.lookup t = some p) ∧
    (kvs ≠ [] → (Conc.race sh0 t kvs schedule).writers.all Conc.Writer.isDone = true →
      (Conc.race sh0 t kvs schedule).shared.TenantCount = sh0.TenantCount + 1 ∧
      (Conc.race sh0 t kvs schedule).shared.objects.length = sh0.objects.length + 1 ∧
      (∀ kv, kv ∈ kvs → kv.1 ≠ "" →
        ∃ v, (Conc.race sh0 t kvs schedule).shared.Get t kv.1 = (v, true) ∧
          (kv.1, v) ∈ kvs) ∧
      ((kvs.map Prod.fst).Nodup → ∀ kv, kv ∈ kvs → kv.1 ≠ "" →
        (Conc.race sh0 t kvs schedule).shared.Get t kv.1 = (kv.2, true))) ∧
    (Conc.race sh0 t kvs ((List.range kvs.length).flatMap (fun i => [i, i, i]))).writers.all
      Conc.Writer.isDone = true :=
  ⟨(conc_race_safe sh0 t kvs schedule ht h0).1,
    (conc_race_safe sh0 t kvs schedule ht h0).2.1,
    (conc_race_safe sh0 t kvs schedule ht h0).2.2,
    conc_complete_schedule sh0 t kvs⟩

/-- Witness of C27: two goroutines set "a" and "b" in the new tenant "t" of an
empty registry; both miss in the lookup, both go on to the re-check, and the
second one finds the tenant store that the first one has created. -/
theorem C27_concurrent_tenant_creation_witness :
    (Conc.race ⟨∅, []⟩ "t" [("a", [1]), ("b", [2])] [0, 1, 0, 1, 0, 1]).shared.TenantCount
      = 1 ∧
    (Conc.race ⟨∅, []⟩ "t" [("a", [1]), ("b", [2])] [0, 1, 0, 1, 0, 1]).shared.objects.length
      = 1 ∧
    (Conc.race ⟨∅, []⟩ "t" [("a", [1]), ("b", [2])] [0, 1, 0, 1, 0, 1]).shared.Get "t" "a"
      = ([1], true) ∧
    (Conc.race ⟨∅, []⟩ "t" [("a", [1]), ("b", [2])] [0, 1, 0, 1, 0, 1]).shared.Get "t" "b"
      = ([2], true) :=
  ⟨((C27_concurrent_tenant_creation ⟨∅, []⟩ "t" [("a", [1]), ("b", [2])] [0, 1, 0, 1, 0, 1]
      (by decide) rfl).2.2.1 (by decide) (by decide)).1,
    ((C27_concurrent_tenant_creation ⟨∅, []⟩ "t" [("a", [1]), ("b", [2])] [0, 1, 0, 1, 0, 1]
      (by decide) rfl).2.2.1 (by decide) (by decide)).2.1,
    ((C27_concurrent_tenant_creation ⟨∅, []⟩ "t" [("a", [1]), ("b", [2])] [0, 1, 0, 1, 0, 1]
      (by decide) rfl).2.2.1 (by decide) (by decide)).2.2.2 (by decide) ("a", [1])
      (by decide) (by decide),
    ((C27_concurrent_tenant_creation ⟨∅, []⟩ "t" [("a", [1]), ("b", [2])] [0, 1, 0, 1, 0, 1]
      (by decide) rfl).2.2.1 (by decide) (by decide)).2.2.2 (by decide) ("b", [2])
      (by decide) (by decide)⟩

end TinkerDB
